import Mathlib

/-!
Shallow embedding of the pytr repository (src/pytr/dl.py, src/pytr/utils.py)
and proofs about its pagination walker, detail-resolution window, event
classifier and download queue.
-/

namespace Pytr

/-! ## Python error model -/

/-- The Python exception kinds raised by the embedded code. -/
inductive PyErr where
  | keyError
  | indexError
  | typeError
  | valueError
  | nameError
  | attributeError
  | connectionError
  deriving DecidableEq, Repr

/-- Filesystem paths, as a list of path segments (model of pathlib.Path). -/
abbrev FsPath := List String

/-! ## Python value model (JSON-like payloads) -/

/-- Python values as they appear in the JSON payloads handled by utils.py. -/
inductive PyVal where
  | pynone
  | str (s : String)
  | int (n : Int)
  | list (l : List PyVal)
  | dict (d : List (String × PyVal))
  deriving Repr

mutual

/-- Structural equality of Python values (`==`). -/
def PyVal.beq : PyVal → PyVal → Bool
  | .pynone, .pynone => true
  | .str a, .str b => a == b
  | .int a, .int b => a == b
  | .list a, .list b => PyVal.beqList a b
  | .dict a, .dict b => PyVal.beqDict a b
  | _, _ => false

def PyVal.beqList : List PyVal → List PyVal → Bool
  | [], [] => true
  | a :: as, b :: bs => PyVal.beq a b && PyVal.beqList as bs
  | _, _ => false

def PyVal.beqDict : List (String × PyVal) → List (String × PyVal) → Bool
  | [], [] => true
  | (k1, v1) :: as, (k2, v2) :: bs => k1 == k2 && PyVal.beq v1 v2 && PyVal.beqDict as bs
  | _, _ => false

end

instance : BEq PyVal := ⟨PyVal.beq⟩

/-- `v[k]` for a string key: KeyError when the key is missing, TypeError when `v` is not
a dict. -/
def PyVal.getItem (v : PyVal) (k : String) : Except PyErr PyVal :=
  match v with
  | .dict d =>
    match d.lookup k with
    | some x => .ok x
    | none => .error .keyError
  | _ => .error .typeError

/-- `v.get(k)`: `None` when the key is missing; AttributeError when `v` is not a dict. -/
def PyVal.getOpt (v : PyVal) (k : String) : Except PyErr PyVal :=
  match v with
  | .dict d => .ok ((d.lookup k).getD .pynone)
  | _ => .error .attributeError

/-- `v.get(k, dflt)`. -/
def PyVal.getOptD (v : PyVal) (k : String) (dflt : PyVal) : Except PyErr PyVal :=
  match v with
  | .dict d => .ok ((d.lookup k).getD dflt)
  | _ => .error .attributeError

/-- Python truthiness (`if v:`). -/
def PyVal.truthy : PyVal → Bool
  | .pynone => false
  | .str s => !s.isEmpty
  | .int n => !(n == 0)
  | .list l => !l.isEmpty
  | .dict d => !d.isEmpty

/-- `for x in v`: iterating a list yields its elements, a dict its keys, a string its
characters; other values raise TypeError. -/
def PyVal.iter : PyVal → Except PyErr (List PyVal)
  | .list l => .ok l
  | .dict d => .ok (d.map (fun p => .str p.1))
  | .str s => .ok (s.toList.map (fun c => .str (String.mk [c])))
  | _ => .error .typeError

/-- `str(v)` as used by f-string interpolation.  Scalars follow Python; the rendering of
composite values is irrelevant to every claim and is abbreviated. -/
def PyVal.pyStr : PyVal → String
  | .pynone => "None"
  | .str s => s
  | .int n => toString n
  | .list _ => "[list]"
  | .dict _ => "[dict]"

/-- Python dict assignment `d[k] = v`: updates an existing key in place, otherwise
appends (dicts preserve insertion order). -/
def assocSet {α : Type} : List (String × α) → String → α → List (String × α)
  | [], k, v => [(k, v)]
  | (k', v') :: rest, k, v =>
    if k' = k then (k, v) :: rest else (k', v') :: assocSet rest k v

/-- Accessing a field the source reads unconditionally: KeyError when absent. -/
def require {α : Type} : Option α → Except PyErr α
  | some a => .ok a
  | none => .error .keyError

/-- Subscripting the result of `get_key` (which may be `None`): `None[k]` raises
TypeError. -/
def subscriptOpt (o : Option PyVal) (k : String) : Except PyErr PyVal :=
  match o with
  | some v => v.getItem k
  | none => .error .typeError

/-- Membership in an `except (TypeError, KeyError, IndexError)` clause. -/
def isTKI : PyErr → Bool
  | .typeError => true
  | .keyError => true
  | .indexError => true
  | _ => false

/-- Python `list.pop()`: removes and returns the last element. -/
def popLast {α : Type} (l : List α) : Option (List α × α) :=
  match l.reverse with
  | [] => none
  | x :: rest => some (rest.reverse, x)

/-! ## Dates, numbers, regular expression (utils.py helpers) -/

/-- A decimal number from a list of digit characters (`none` unless all digits). -/
def parseNatDigits (cs : List Char) : Option Nat :=
  if cs.all Char.isDigit then
    some (cs.foldl (fun a c => a * 10 + (c.toNat - 48)) 0)
  else none

/-- The fields of a parsed `datetime` that the code reads. -/
structure PyDateTime where
  year : Nat
  month : Nat
  day : Nat
  hour : Nat
  minute : Nat
  deriving DecidableEq, Repr

/-- Parse the ten characters `YYYY-MM-DD`. -/
def parseDate10 (cs : List Char) : Option (Nat × Nat × Nat) :=
  match cs with
  | [y1, y2, y3, y4, '-', m1, m2, '-', d1, d2] => do
    let y ← parseNatDigits [y1, y2, y3, y4]
    let m ← parseNatDigits [m1, m2]
    let d ← parseNatDigits [d1, d2]
    if 1 ≤ m ∧ m ≤ 12 ∧ 1 ≤ d ∧ d ≤ 31 then some (y, m, d) else none
  | _ => none

/-- `datetime.fromisoformat`: `YYYY-MM-DD`, optionally followed by a separator and
`HH:MM` (any trailing seconds/offset are accepted unvalidated); ValueError on anything
else. -/
def fromisoformat (s : String) : Except PyErr PyDateTime :=
  let cs := s.toList
  match parseDate10 (cs.take 10) with
  | none => .error .valueError
  | some (y, m, d) =>
    if cs.length = 10 then .ok ⟨y, m, d, 0, 0⟩
    else
      match cs.drop 10 with
      | sep :: h1 :: h2 :: ':' :: mi1 :: mi2 :: _ =>
        if sep = 'T' ∨ sep = ' ' then
          match parseNatDigits [h1, h2], parseNatDigits [mi1, mi2] with
          | some h, some mi =>
            if h ≤ 23 ∧ mi ≤ 59 then .ok ⟨y, m, d, h, mi⟩ else .error .valueError
          | _, _ => .error .valueError
        else .error .valueError
      | _ => .error .valueError

/-- `datetime.strptime(s, d_dot_m_dot_Y)` for the date format used on documents
(day.month.year): returns (day, month, year) or ValueError. -/
def strptime_dmY (s : String) : Except PyErr (Nat × Nat × Nat) :=
  match s.toList with
  | [d1, d2, '.', m1, m2, '.', y1, y2, y3, y4] =>
    match parseNatDigits [d1, d2], parseNatDigits [m1, m2],
        parseNatDigits [y1, y2, y3, y4] with
    | some d, some m, some y =>
      if 1 ≤ m ∧ m ≤ 12 ∧ 1 ≤ d ∧ d ≤ 31 then .ok (d, m, y) else .error .valueError
    | _, _, _ => .error .valueError
  | _ => .error .valueError

/-- Zero-padded two-digit rendering. -/
def pad2 (n : Nat) : String := if n < 10 then "0" ++ toString n else toString n

/-- Zero-padded four-digit rendering. -/
def pad4 (n : Nat) : String :=
  if n < 10 then "000" ++ toString n
  else if n < 100 then "00" ++ toString n
  else if n < 1000 then "0" ++ toString n
  else toString n

/-- `strftime` of the date part `%Y-%m-%d`. -/
def fmtYmd (y m d : Nat) : String := pad4 y ++ "-" ++ pad2 m ++ "-" ++ pad2 d

/-- `strftime` of the time part `%H:%M`. -/
def fmtHM (h mi : Nat) : String := pad2 h ++ ":" ++ pad2 mi

/-- `get_datetime(timestampstr)` (utils.py lines 395-399): parse an ISO timestamp and
return (timestamp, date, time); `fromisoformat` raises TypeError on a non-string. -/
def get_datetime (tsv : PyVal) : Except PyErr (PyDateTime × String × String) :=
  match tsv with
  | .str s =>
    match fromisoformat s with
    | .ok t => .ok (t, fmtYmd t.year t.month t.day, fmtHM t.hour t.minute)
    | .error e => .error e
  | _ => .error .typeError

/-- The fixed-point rendering of an integer value with `d` fraction digits (the only
numeric values in this model are integers; floating point is out of scope). -/
def formatFixed (n : Int) (d : Nat) : String :=
  if d = 0 then toString n else toString n ++ "." ++ String.mk (List.replicate d '0')

/-- `get_amount(amountdict)` (utils.py lines 387-392): reads fractionDigits, currency
and value, formats the value with that many decimals and a comma decimal separator, and
returns the formatted amount together with the raw currency value. -/
def get_amount (amountdict : PyVal) : Except PyErr (String × PyVal) := do
  let digits ← amountdict.getItem "fractionDigits"
  let currency ← amountdict.getItem "currency"
  let value ← amountdict.getItem "value"
  match value, digits with
  | .int n, .int dg =>
    if 0 ≤ dg then
      .ok (String.mk ((formatFixed n dg.toNat).toList.map
        (fun c => if c == '.' then ',' else c)), currency)
    else .error .valueError
  | _, _ => .error .typeError

/-- The capture group of RE_ISIN_LOGO: two uppercase letters, an optional dash, nine
characters that are digits or uppercase letters, an optional dash, one digit. -/
def isinGroup (g : List Char) : Bool :=
  match g with
  | a :: b :: rest =>
    a.isUpper && b.isUpper &&
    (let r1 := match rest with
       | '-' :: r => r
       | r => r
     decide (9 ≤ r1.length) && (r1.take 9).all (fun c => c.isDigit || c.isUpper) &&
     (let r2 := r1.drop 9
      let r3 := match r2 with
        | '-' :: r => r
        | r => r
      match r3 with
      | [c] => c.isDigit
      | _ => false))
  | _ => false

/-- `RE_ISIN_LOGO.match(s)` (utils.py line 15): the full string must be
`logos/` ++ group ++ `/v2`; on a match the capture group (the ISIN) is returned. -/
def matchIsinLogo (s : String) : Option String :=
  let cs := s.toList
  if cs.take 6 = "logos/".toList then
    let rest := cs.drop 6
    if 3 ≤ rest.length ∧ rest.drop (rest.length - 3) = ['/', 'v', '2'] then
      let g := rest.take (rest.length - 3)
      if isinGroup g then some (String.mk g) else none
    else none
  else none

/-! ## Download queue (src/pytr/dl.py, class DL) -/

/-- A scheduled asynchronous fetch: `future = self.session.get(doc_url)` with the
attributes `future.filepath` and `future.doc_url_base` attached in `DL.dl_doc`. -/
structure FutureTag where
  url : String
  filepath : FsPath
  doc_url_base : String
  deriving DecidableEq, Repr

/-- The mutable state of a `DL` object (the fields of `DL.__init__` that the download
queue logic reads and writes).  `fs` models `Path.exists` on the ambient filesystem. -/
structure DLState where
  output_path : FsPath
  fs : FsPath → Bool
  doc_urls : List String
  doc_urls_history : List String
  futures : List FutureTag
  done : Nat

/-- `doc_url.split('?')[0]`: the canonical document key, i.e. all characters of the URL
before the first `?` (the whole URL when there is none). -/
def doc_url_base (doc_url : String) : String :=
  String.mk (doc_url.toList.takeWhile (fun c => !(c == '?')))

/-- `self.output_path / subfolder / filepath` (joining with `''` is a no-op in pathlib). -/
def fullPath (out : FsPath) (subfolder : String) (fp : FsPath) : FsPath :=
  out ++ (if subfolder = "" then [] else [subfolder]) ++ fp

/-- `DL.dl_doc(doc_url, filepath, subfolder)` (dl.py lines 86-109): skip if the
destination exists; skip if the canonical key is already in the in-run queue or the
history; otherwise record the key and schedule the fetch. -/
def dl_doc (s : DLState) (doc_url : String) (filepath : FsPath) (subfolder : String) :
    DLState :=
  let filepath := fullPath s.output_path subfolder filepath
  if s.fs filepath then s
  else
    let base := doc_url_base doc_url
    if base ∈ s.doc_urls then s
    else if base ∈ s.doc_urls_history then s
    else { s with doc_urls := s.doc_urls ++ [base],
                  futures := s.futures ++
                    [{ url := doc_url, filepath := filepath, doc_url_base := base }] }

/-- Observable outcome of `DL.work_responses` (dl.py lines 111-141): the files written
(with the body that was written), the lines appended to the history file, the final
`done` counter, how many times `log.fatal` ran, whether an uncaught exception escaped
(`r` unbound on the first failed future gives an UnboundLocalError), and whether
`exit(0)` was reached. -/
structure WorkResult where
  files_written : List (FsPath × String)
  history_appends : List String
  done : Nat
  fatal_logs : Nat
  aborted : Option PyErr
  early_exit : Bool
  deriving Repr

/-- The body of the `for future in as_completed(self.futures)` loop.  `r` is the Python
local variable holding the last successful `future.result()`: on an exception the code
only logs at fatal severity and falls through, so `r.content` is the previous response
body (or unbound, modelled as `none`, which raises).  `results` is the completion-order
list of futures with their outcomes. -/
def work_responses_go (total : Nat) :
    List (FutureTag × Except PyErr String) → Option String → WorkResult → WorkResult
  | [], _, acc => acc
  | (fut, res) :: rest, r, acc =>
    let step : Option String × WorkResult :=
      match res with
      | .ok content => (some content, acc)
      | .error _ => (r, { acc with fatal_logs := acc.fatal_logs + 1 })
    match step with
    | (none, acc) => { acc with aborted := some PyErr.nameError }
    | (some content, acc) =>
      let acc := { acc with
        files_written := acc.files_written ++ [(fut.filepath, content)],
        done := acc.done + 1,
        history_appends := acc.history_appends ++ [fut.doc_url_base] }
      if acc.done = total then { acc with early_exit := true }
      else work_responses_go total rest (some content) acc

/-- `DL.work_responses` (dl.py lines 111-141). -/
def work_responses (s : DLState) (results : List (FutureTag × Except PyErr String)) :
    WorkResult :=
  if s.doc_urls.length = 0 then
    { files_written := [], history_appends := [], done := s.done, fatal_logs := 0,
      aborted := none, early_exit := true }
  else
    work_responses_go s.doc_urls.length results none
      { files_written := [], history_appends := [], done := s.done, fatal_logs := 0,
        aborted := none, early_exit := false }

/-- A document reference handed to the queue during one run. -/
structure DocRef where
  url : String
  filepath : FsPath
  subfolder : String

/-- A fresh `DL` object after `__init__`/`load_history`: empty in-run queue, the given
history file contents. -/
def mkDL (out : FsPath) (fs : FsPath → Bool) (history : List String) : DLState :=
  { output_path := out, fs := fs, doc_urls := [], doc_urls_history := history,
    futures := [], done := 0 }

/-- Enqueue a sequence of document references (the calls `dl.dl_doc(...)` of one run). -/
def foldDL (s : DLState) (refs : List DocRef) : DLState :=
  refs.foldl (fun s r => dl_doc s r.url r.filepath r.subfolder) s

/-- One whole run of the queue over `refs`, starting from a fresh `DL`. -/
def runDL (out : FsPath) (fs : FsPath → Bool) (history : List String)
    (refs : List DocRef) : DLState :=
  foldDL (mkDL out fs history) refs

/-! ## Payload navigation helpers (utils.py lines 402-453) -/

/-- The `key` argument of `get_key`: a plain key or a list of keys. -/
inductive PyKey where
  | s (k : String)
  | path (ks : List String)

/-- The per-part value extraction of `get_key`: `part[key]` for a plain key, the chain
`v = part; for k in key: v = v[k]` for a key path. -/
def get_key_lookup (key : PyKey) (p : PyVal) : Except PyErr PyVal :=
  match key with
  | .s k => p.getItem k
  | .path ks => ks.foldlM (fun acc kk => acc.getItem kk) p

/-- The `for part in parts` loop of `get_key`. -/
def get_key_go (key : PyKey) (value : PyVal) : List PyVal → Except PyErr (Option PyVal)
  | [] => .ok none
  | p :: rest =>
    match get_key_lookup key p with
    | .error e => .error e
    | .ok v => if v == value then .ok (some p) else get_key_go key value rest

/-- `get_key(parts, key, value)` (utils.py lines 402-411): the first part whose value at
`key` (a key or key path) equals `value`, or `None` when no part matches. -/
def get_key (parts : PyVal) (key : PyKey) (value : PyVal) : Except PyErr (Option PyVal) :=
  match parts.iter with
  | .error e => .error e
  | .ok l => get_key_go key value l

/-- A timeline event V2 (an item of a `timelineTransactions` page).  `id` and
`eventType` are the fields the code reads unconditionally (`event['id']` in the fill
step, `event['eventType'].lower()` in the dispatch); all other fields are optional and
read with KeyError semantics.  `details` is attached when the detail response
arrives. -/
structure EventV2 where
  id : String
  eventType : String
  timestamp : Option PyVal
  title : Option PyVal
  subtitle : Option PyVal
  amount : Option PyVal
  icon : Option PyVal
  action : Option PyVal
  actionLabel : Option PyVal
  details : Option PyVal
  deriving Repr

/-- The event fields accessed via `event[k]` by helpers and handlers. -/
def EventV2.getField (e : EventV2) (k : String) : Except PyErr PyVal :=
  match k with
  | "id" => .ok (.str e.id)
  | "eventType" => .ok (.str e.eventType)
  | "timestamp" => require e.timestamp
  | "title" => require e.title
  | "subtitle" => require e.subtitle
  | "amount" => require e.amount
  | "icon" => require e.icon
  | "action" => require e.action
  | "actionLabel" => require e.actionLabel
  | "details" => require e.details
  | _ => .error .keyError

/-- `class Document` (utils.py lines 428-435): the attributes set by `__init__`. -/
structure Document where
  title : PyVal
  date : PyVal
  filedate : String
  url : PyVal
  id : PyVal
  postboxType : PyVal
  deriving Repr

/-- `Document(data)`: reads title, detail (whose value must parse as day.month.year and
is reformatted as year-month-day), action.payload, id and postboxType. -/
def Document.ofData (data : PyVal) : Except PyErr Document := do
  let title ← data.getItem "title"
  let date ← data.getItem "detail"
  let filedate ← (match date with
    | .str ds =>
      (match strptime_dmY ds with
       | .ok (d, m, y) => .ok (fmtYmd y m d)
       | .error e => .error e)
    | _ => .error .typeError)
  let url ← (← data.getItem "action").getItem "payload"
  let idv ← data.getItem "id"
  let pbt ← data.getItem "postboxType"
  .ok { title := title, date := date, filedate := filedate, url := url, id := idv,
        postboxType := pbt }

/-- The body of `get_documents(event)` before its outer `except` clause: locate the
section titled `Dokumente` and build one `Document` per entry of its `data` list,
silently dropping entries whose construction raises TypeError, KeyError or
IndexError. -/
def get_documents_body (event : EventV2) : Except PyErr (List Document) := do
  let details ← require event.details
  let sections ← details.getItem "sections"
  let documents ← get_key sections (.s "title") (.str "Dokumente")
  let dataV ← subscriptOpt documents "data"
  let dataL ← dataV.iter
  dataL.foldlM (fun docs d =>
    match Document.ofData d with
    | .ok doc => .ok (docs ++ [doc])
    | .error e => if isTKI e then .ok docs else .error e) []

/-- `get_documents(event)` (utils.py lines 438-453, `key is None` variant): missing
sections or fields give the empty list via the outer `except (TypeError, KeyError,
IndexError)`. -/
def get_documents (event : EventV2) : Except PyErr (List Document) :=
  match get_documents_body event with
  | .ok docs => .ok docs
  | .error e => if isTKI e then .ok [] else .error e

/-- Dict assignment keyed by an arbitrary Python value (`docs[data[key]] = doc`). -/
def pyAssocSet (d : List (PyVal × Document)) (k : PyVal) (v : Document) :
    List (PyVal × Document) :=
  match d with
  | [] => [(k, v)]
  | (k', v') :: rest => if k' == k then (k, v) :: rest else (k', v') :: pyAssocSet rest k v

/-- Dict lookup keyed by a Python value. -/
def pyAssocGet (d : List (PyVal × Document)) (k : PyVal) : Option Document :=
  (d.find? (fun p => p.1 == k)).map (fun p => p.2)

/-- The body of `get_documents(event, key)` (keyed variant): as `get_documents_body`,
but the documents are keyed by `data[key]` (an unhashable key raises TypeError, caught
by the inner clause). -/
def get_documents_keyed_body (event : EventV2) (key : String) :
    Except PyErr (List (PyVal × Document)) := do
  let details ← require event.details
  let sections ← details.getItem "sections"
  let documents ← get_key sections (.s "title") (.str "Dokumente")
  let dataV ← subscriptOpt documents "data"
  let dataL ← dataV.iter
  dataL.foldlM (fun docs d =>
    match (do
      let doc ← Document.ofData d
      let kv ← d.getItem key
      match kv with
      | .list _ => (.error .typeError : Except PyErr (PyVal × Document))
      | .dict _ => .error .typeError
      | _ => .ok (kv, doc)) with
    | .ok (kv, doc) => .ok (pyAssocSet docs kv doc)
    | .error e => if isTKI e then .ok docs else .error e) []

/-- `get_documents(event, key)` with the outer `except` clause. -/
def get_documents_keyed (event : EventV2) (key : String) :
    Except PyErr (List (PyVal × Document)) :=
  match get_documents_keyed_body event key with
  | .ok docs => .ok docs
  | .error e => if isTKI e then .ok [] else .error e

/-- First attempt of `get_isin` (utils.py line 416): the payload of the
`instrumentDetail` action among the detail sections. -/
def get_isin_try1 (event : EventV2) : Except PyErr PyVal := do
  let details ← require event.details
  let sections ← details.getItem "sections"
  let part ← get_key sections (.path ["action", "type"]) (.str "instrumentDetail")
  let actionv ← subscriptOpt part "action"
  actionv.getItem "payload"

/-- Second attempt of `get_isin` (utils.py lines 420-423): match the icon path against
RE_ISIN_LOGO (`re.match` on a non-string raises TypeError). -/
def get_isin_try2 (event : EventV2) : Except PyErr (Option String) := do
  let icon ← require event.icon
  match icon with
  | .str s => .ok (matchIsinLogo s)
  | _ => .error .typeError

/-- `get_isin(event)` (utils.py lines 414-426): the first attempt's failures
(TypeError, KeyError, IndexError) fall through to the icon attempt, whose failures
(TypeError, KeyError) fall through to the empty string. -/
def get_isin (event : EventV2) : Except PyErr PyVal :=
  match get_isin_try1 event with
  | .ok v => .ok v
  | .error e =>
    if isTKI e then
      match get_isin_try2 event with
      | .ok (some g) => .ok (.str g)
      | .ok none => .ok (.str "")
      | .error e2 =>
        if e2 = .typeError ∨ e2 = .keyError then .ok (.str "") else .error e2
    else .error e

/-- Modelled from the spec: `DL.dl_doc_v2` is called by every v2 event handler
(`dl.dl_doc_v2(doc.url, filepath, doc.id)`) but is absent from `src/pytr/dl.py`, which
only defines `dl_doc`.  Per spec section 4.4, `enqueue(url, destinationPath)`: skip when
the destination path already exists; skip when the canonical key (URL without query
string) is already in the in-run queue or the History Store; otherwise record the key
and schedule the fetch.  The extra document id argument is not part of the spec's
contract and is ignored; splitting a non-string URL raises AttributeError. -/
def dl_doc_v2 (s : DLState) (url : PyVal) (filepath : FsPath) (_docId : PyVal) :
    Except PyErr DLState :=
  match url with
  | .str u =>
    let filepath := s.output_path ++ filepath
    if s.fs filepath then .ok s
    else
      let base := doc_url_base u
      if base ∈ s.doc_urls then .ok s
      else if base ∈ s.doc_urls_history then .ok s
      else .ok { s with doc_urls := s.doc_urls ++ [base],
                        futures := s.futures ++
                          [{ url := u, filepath := filepath, doc_url_base := base }] }
  | _ => .error .attributeError

/-! ## Event classifier handlers (utils.py lines 493-696) -/

/-- The three tabular-row accumulators of `TimelineTransaction` that the handlers read
and write (`self.payments`, `self.direct_debit`, `self.card_transactions`). -/
structure Rows where
  payments : List (List PyVal)
  direct_debit : List (List PyVal)
  card_transactions : List (List PyVal)
  deriving Repr

/-- What a handler call produces: the updated row accumulators, the updated download
queue, and the one-line summary it returns. -/
abbrev HandlerOut := Rows × DLState × String

/-- Dict assignment keyed by a Python value (dict comprehension entries; later keys
overwrite earlier ones in place). -/
def pyDictSet (d : List (PyVal × PyVal)) (k v : PyVal) : List (PyVal × PyVal) :=
  match d with
  | [] => [(k, v)]
  | (k', v') :: rest => if k' == k then (k, v) :: rest else (k', v') :: pyDictSet rest k v

/-- Dict lookup keyed by a Python value; KeyError when absent. -/
def pyDictGet (d : List (PyVal × PyVal)) (k : PyVal) : Except PyErr PyVal :=
  match d.find? (fun p => p.1 == k) with
  | some p => .ok p.2
  | none => .error .keyError

/-- `event_coupon_payment` (utils.py lines 493-507). -/
def event_coupon_payment (rows : Rows) (event : EventV2) (dl : DLState)
    (_max_age : Int) : Except PyErr HandlerOut := do
  let (_amount, _currency) ← get_amount (← require event.amount)
  let _ ← get_datetime (← require event.timestamp)
  let details ← require event.details
  let sections ← details.getItem "sections"
  let overview ← get_key sections (.s "title") (.str "Übersicht")
  let overview_data ← subscriptOpt overview "data"
  let description ← (← subscriptOpt
    (← get_key overview_data (.s "title") (.str "Ereignis")) "detail").getItem "text"
  let asset ← (← subscriptOpt
    (← get_key overview_data (.s "title") (.str "Asset")) "detail").getItem "text"
  let docs ← get_documents event
  let doc ← (match docs with
    | d :: _ => (.ok d : Except PyErr Document)
    | [] => .error .indexError)
  let filepath : FsPath := [doc.title.pyStr ++ " " ++ description.pyStr,
    doc.filedate ++ " - " ++ description.pyStr ++ " - " ++ asset.pyStr ++ ".pdf"]
  let dl ← dl_doc_v2 dl doc.url filepath doc.id
  .ok (rows, dl, description.pyStr ++ ": " ++ asset.pyStr)

/-- `event_credit` (utils.py lines 509-523). -/
def event_credit (rows : Rows) (event : EventV2) (dl : DLState) (_max_age : Int) :
    Except PyErr HandlerOut := do
  let (_amount, _currency) ← get_amount (← require event.amount)
  let _ ← get_datetime (← require event.timestamp)
  let details ← require event.details
  let sections ← details.getItem "sections"
  let overview ← get_key sections (.s "title") (.str "Übersicht")
  let overview_data ← subscriptOpt overview "data"
  let description ← (← subscriptOpt
    (← get_key overview_data (.s "title") (.str "Ereignis")) "detail").getItem "text"
  let asset ← (← subscriptOpt
    (← get_key overview_data (.s "title") (.str "Asset")) "detail").getItem "text"
  let isin ← get_isin event
  let docs ← get_documents event
  let doc ← (match docs with
    | d :: _ => (.ok d : Except PyErr Document)
    | [] => .error .indexError)
  let filepath : FsPath := [description.pyStr,
    doc.filedate ++ " - " ++ description.pyStr ++ " - " ++ isin.pyStr ++ " " ++
      asset.pyStr ++ ".pdf"]
  let dl ← dl_doc_v2 dl doc.url filepath doc.id
  let subtitle ← require event.subtitle
  let title ← require event.title
  .ok (rows, dl, subtitle.pyStr ++ ": " ++ title.pyStr)

/-- `event_interest_payout_created_` (utils.py lines 525-526). -/
def event_interest_payout_created_ (rows : Rows) (event : EventV2) (dl : DLState)
    (_max_age : Int) : Except PyErr HandlerOut := do
  let subtitle ← require event.subtitle
  .ok (rows, dl, "Interest: " ++ subtitle.pyStr)

/-- `event_order_executed_` (utils.py lines 528-529). -/
def event_order_executed_ (rows : Rows) (event : EventV2) (dl : DLState)
    (_max_age : Int) : Except PyErr HandlerOut := do
  let subtitle ← require event.subtitle
  let title ← require event.title
  .ok (rows, dl, subtitle.pyStr ++ ": " ++ title.pyStr)

/-- The `for section in event[details][sections]` loop of `payment` (utils.py lines
535-542): at the first section titled Übersicht, build the infos dict, read the
counter-account, status and IBAN, append one payments row, and `break`. -/
def paymentLoop (counterstr : String) (date time amount : String) (currency : PyVal)
    (rows : Rows) : List PyVal → Except PyErr Rows
  | [] => .ok rows
  | sec :: rest =>
    match sec.getItem "title" with
    | .error e => .error e
    | .ok t =>
      if t == .str "Übersicht" then do
        let dataV ← sec.getItem "data"
        let dataL ← dataV.iter
        let infos ← dataL.foldlM (fun acc d => do
          let k ← d.getItem "title"
          let v ← (← d.getItem "detail").getItem "text"
          match k with
          | .list _ => (.error .typeError : Except PyErr (List (PyVal × PyVal)))
          | .dict _ => .error .typeError
          | _ => .ok (pyDictSet acc k v)) []
        let counteraccount ← pyDictGet infos (.str counterstr)
        let status ← pyDictGet infos (.str "Status")
        let iban ← pyDictGet infos (.str "IBAN")
        .ok { rows with payments := rows.payments ++
          [[.str date, .str time, counteraccount, iban, status, .str amount, currency]] }
      else paymentLoop counterstr date time amount currency rows rest

/-- `TimelineTransaction.payment` (utils.py lines 531-543). -/
def payment (rows : Rows) (event : EventV2) (counterstr : String) :
    Except PyErr (Rows × String) := do
  let (amount, currency) ← get_amount (← require event.amount)
  let (_t, date, time) ← get_datetime (← require event.timestamp)
  let details ← require event.details
  let sections ← details.getItem "sections"
  let sl ← sections.iter
  let rows ← paymentLoop counterstr date time amount currency rows sl
  .ok (rows, amount ++ " " ++ currency.pyStr)

/-- `event_payment_inbound` (utils.py lines 545-547). -/
def event_payment_inbound (rows : Rows) (event : EventV2) (dl : DLState)
    (_max_age : Int) : Except PyErr HandlerOut := do
  let (rows, s) ← payment rows event "Von"
  .ok (rows, dl, "Payment inbound: " ++ s)

/-- `event_payment_outbound` (utils.py lines 549-551). -/
def event_payment_outbound (rows : Rows) (event : EventV2) (dl : DLState)
    (_max_age : Int) : Except PyErr HandlerOut := do
  let (rows, s) ← payment rows event "An"
  .ok (rows, dl, "Payment outbound: " ++ s)

/-- `event_payment_inbound_sepa_direct_debit` (utils.py lines 553-565). -/
def event_payment_inbound_sepa_direct_debit (rows : Rows) (event : EventV2)
    (dl : DLState) (_max_age : Int) : Except PyErr HandlerOut := do
  let (amount, currency) ← get_amount (← require event.amount)
  let (_t, date, time) ← get_datetime (← require event.timestamp)
  let dd0 := if rows.direct_debit.isEmpty then
      [[PyVal.str "Datum", .str "Uhrzeit", .str "Wert", .str "Währung", .str "Notiz"]]
    else rows.direct_debit
  let rows := { rows with direct_debit :=
    dd0 ++ [[PyVal.str date, .str time, .str amount, currency, .str "Lastschrifteinzug"]] }
  let docs ← get_documents event
  let doc ← (match docs with
    | d :: _ => (.ok d : Except PyErr Document)
    | [] => .error .indexError)
  let seg ← (match doc.title with
    | .str tt => (.ok tt : Except PyErr String)
    | _ => .error .typeError)
  let dl ← dl_doc_v2 dl doc.url [seg, doc.filedate ++ " - Lastschrifteinzug.pdf"] doc.id
  .ok (rows, dl, "Payment inbound: direct debit: " ++ amount ++ " " ++ currency.pyStr)

/-- `event_repayment` (utils.py lines 567-581): the invoice is the document keyed
SHAREBOOKING of the postboxType-keyed document dict. -/
def event_repayment (rows : Rows) (event : EventV2) (dl : DLState) (_max_age : Int) :
    Except PyErr HandlerOut := do
  let (_amount, _currency) ← get_amount (← require event.amount)
  let _ ← get_datetime (← require event.timestamp)
  let details ← require event.details
  let sections ← details.getItem "sections"
  let overview ← get_key sections (.s "title") (.str "Übersicht")
  let overview_data ← subscriptOpt overview "data"
  let description ← (← subscriptOpt
    (← get_key overview_data (.s "title") (.str "Ereignis")) "detail").getItem "text"
  let asset ← (← subscriptOpt
    (← get_key overview_data (.s "title") (.str "Asset")) "detail").getItem "text"
  let isin ← get_isin event
  let docsK ← get_documents_keyed event "postboxType"
  let doc ← (match pyAssocGet docsK (.str "SHAREBOOKING") with
    | some d => (.ok d : Except PyErr Document)
    | none => .error .keyError)
  let filepath : FsPath := [doc.title.pyStr ++ " " ++ description.pyStr,
    doc.filedate ++ " - " ++ description.pyStr ++ " - " ++ isin.pyStr ++ " " ++
      asset.pyStr ++ ".pdf"]
  let dl ← dl_doc_v2 dl doc.url filepath doc.id
  .ok (rows, dl, description.pyStr ++ ": " ++ isin.pyStr ++ " " ++ asset.pyStr)

/-- `event_savings_plan_executed` (utils.py lines 583-591). -/
def event_savings_plan_executed (rows : Rows) (event : EventV2) (dl : DLState)
    (_max_age : Int) : Except PyErr HandlerOut := do
  let docs ← get_documents event
  let doc ← (match docs with
    | d :: _ => (.ok d : Except PyErr Document)
    | [] => .error .indexError)
  let details ← require event.details
  let _sections ← details.getItem "sections"
  let isin ← get_isin event
  let overview ← get_key _sections (.s "title") (.str "Übersicht")
  let overview_data ← subscriptOpt overview "data"
  let asset ← (← subscriptOpt
    (← get_key overview_data (.s "title") (.str "Asset")) "detail").getItem "text"
  let filepath : FsPath := ["Sparplan", "Abrechnung",
    doc.filedate ++ " - Abrechnung Sparplan - " ++ isin.pyStr ++ " " ++
      asset.pyStr ++ ".pdf"]
  let dl ← dl_doc_v2 dl doc.url filepath doc.id
  .ok (rows, dl, "Sparplan: " ++ isin.pyStr ++ " " ++ asset.pyStr)

/-- One `doc = docs.get(pbt)` / `if doc:` branch of the benefits handlers: when the
postboxType is present, enqueue its document under folder/sub with the given file-name
label. -/
def benefitsBranch (dl : DLState) (docsK : List (PyVal × Document)) (pbt : String)
    (folder sub label asset : String) : Except PyErr DLState :=
  match pyAssocGet docsK (.str pbt) with
  | some doc =>
    dl_doc_v2 dl doc.url [folder, sub, doc.filedate ++ " - " ++ label ++ " - " ++
      asset ++ ".pdf"] doc.id
  | none => .ok dl

/-- `event_benefits_saveback_execution` (utils.py lines 593-617).  (The folder name
`Abrechung` reproduces the source's spelling.) -/
def event_benefits_saveback_execution (rows : Rows) (event : EventV2) (dl : DLState)
    (_max_age : Int) : Except PyErr HandlerOut := do
  let docsK ← get_documents_keyed event "postboxType"
  let asset ← require event.title
  let dl ← benefitsBranch dl docsK "SAVINGS_PLAN_EXECUTED_V2" "Saveback" "Abrechung"
    "Abrechnung Saveback" asset.pyStr
  let dl ← benefitsBranch dl docsK "COSTS_INFO_SAVINGS_PLAN_V2" "Saveback"
    "Kosteninformation" "Kosteninformation Saveback" asset.pyStr
  let dl ← benefitsBranch dl docsK "BENEFIT_ACTIVATED" "Saveback" "Aktivierung"
    "Aktivierung Saveback" asset.pyStr
  let dl ← benefitsBranch dl docsK "BENEFIT_DEACTIVATED" "Saveback" "Deaktivierung"
    "Deaktivierung Saveback" asset.pyStr
  .ok (rows, dl, "Saveback: " ++ asset.pyStr)

/-- `event_benefits_spare_change_execution` (utils.py lines 619-643). -/
def event_benefits_spare_change_execution (rows : Rows) (event : EventV2)
    (dl : DLState) (_max_age : Int) : Except PyErr HandlerOut := do
  let docsK ← get_documents_keyed event "postboxType"
  let asset ← require event.title
  let dl ← benefitsBranch dl docsK "SAVINGS_PLAN_EXECUTED_V2" "Round-Up" "Abrechung"
    "Abrechnung Round-Up" asset.pyStr
  let dl ← benefitsBranch dl docsK "COSTS_INFO_SAVINGS_PLAN_V2" "Round-Up"
    "Kosteninformation" "Kosteninformation Round-Up" asset.pyStr
  let dl ← benefitsBranch dl docsK "BENEFIT_ACTIVATED" "Round-Up" "Aktivierung"
    "Aktivierung Round-Up" asset.pyStr
  let dl ← benefitsBranch dl docsK "BENEFIT_DEACTIVATED" "Round-Up" "Deaktivierung"
    "Deaktivierung Round-Up" asset.pyStr
  .ok (rows, dl, "Round-Up: " ++ asset.pyStr)

/-- `s.rstrip` of the two characters space and the euro sign. -/
def rstripSpaceEuro (s : String) : String :=
  String.mk (s.toList.reverse.dropWhile (fun c => c == ' ' || c == '€')).reverse

/-- The inner `for entry in data` body of `event_card_successful_transaction` (utils.py
lines 656-667); the state is (saveback amount, saveback instrument, round-up amount,
round-up instrument). -/
def cardScanEntry (st : PyVal × PyVal × PyVal × PyVal) (entry : PyVal) :
    Except PyErr (PyVal × PyVal × PyVal × PyVal) := do
  let detail ← entry.getOptD "detail" (.dict [])
  if detail.truthy then do
    let action ← detail.getOpt "action"
    if action.truthy then do
      let action_type ← action.getOptD "type" (.str "")
      if action_type == .str "benefitsSavebackOverview" then do
        let am ← detail.getItem "amount"
        let ams ← (match am with
          | .str s => (.ok (rstripSpaceEuro s) : Except PyErr String)
          | _ => .error .attributeError)
        let ti ← detail.getItem "title"
        .ok (.str ams, ti, st.2.2.1, st.2.2.2)
      else if action_type == .str "benefitsRoundupOverview" then do
        let am ← detail.getItem "amount"
        let ams ← (match am with
          | .str s => (.ok (rstripSpaceEuro s) : Except PyErr String)
          | _ => .error .attributeError)
        let ti ← detail.getItem "title"
        .ok (st.1, st.2.1, .str ams, ti)
      else .ok st
    else .ok st
  else .ok st

/-- The outer `for section in ...` body (utils.py lines 653-655): only sections whose
`data` is a list are scanned. -/
def cardScanSection (st : PyVal × PyVal × PyVal × PyVal) (sec : PyVal) :
    Except PyErr (PyVal × PyVal × PyVal × PyVal) := do
  let dataV ← sec.getItem "data"
  match dataV with
  | .list entries => entries.foldlM cardScanEntry st
  | _ => .ok st

/-- `event_card_successful_transaction` (utils.py lines 645-676). -/
def event_card_successful_transaction (rows : Rows) (event : EventV2) (dl : DLState)
    (_max_age : Int) : Except PyErr HandlerOut := do
  let (amount, currency) ← get_amount (← require event.amount)
  let (_t, date, time) ← get_datetime (← require event.timestamp)
  let merchant ← require event.title
  let details ← require event.details
  let sections ← details.getItem "sections"
  let sl ← sections.iter
  let st ← sl.foldlM cardScanSection (PyVal.str "", PyVal.str "", PyVal.str "", PyVal.str "")
  let ct0 := if rows.card_transactions.isEmpty then
      [[PyVal.str "Datum", .str "Uhrzeit", .str "Händler", .str "Wert", .str "Währung",
        .str "Saveback Betrag", .str "Saveback Sparplan", .str "Round-Up Betrag",
        .str "Round-Up Sparplan"]]
    else rows.card_transactions
  let ct := ct0 ++ [[PyVal.str date, .str time, merchant, .str amount, currency,
    st.1, st.2.1, st.2.2.1, st.2.2.2]]
  .ok ({ rows with card_transactions := ct }, dl, "Card transaction: " ++ merchant.pyStr)

/-- `event_card_successful_verification` (utils.py lines 678-686): a failing amount
lookup is downgraded to `0 EUR`; note no header row is prepended here. -/
def event_card_successful_verification (rows : Rows) (event : EventV2) (dl : DLState)
    (_max_age : Int) : Except PyErr HandlerOut := do
  let (amount, currency) ← (match (do
      get_amount (← require event.amount) : Except PyErr (String × PyVal)) with
    | .ok p => (.ok p : Except PyErr (String × PyVal))
    | .error e => if isTKI e then .ok ("0", .str "EUR") else .error e)
  let (_t, date, time) ← get_datetime (← require event.timestamp)
  let merchant ← require event.title
  let ct := rows.card_transactions ++ [[PyVal.str date, .str time, merchant,
    .str amount, currency, .str "", .str "", .str "", .str ""]]
  .ok ({ rows with card_transactions := ct }, dl,
    "Card verification: " ++ merchant.pyStr)

/-- The `for doc in get_documents(event)` loop of `event_unknown`: the download-queue
mutations made before a failure persist (the returned state carries them together with
the error, mirroring Python's in-place mutation of `dl`). -/
def unknownLoop (name : PyVal) : List Document → DLState → DLState × Option PyErr
  | [], dl => (dl, none)
  | doc :: rest, dl =>
    match (match doc.title with
      | .str tt => (.ok tt : Except PyErr String)
      | _ => .error .typeError) with
    | .error e => (dl, some e)
    | .ok tt =>
      match dl_doc_v2 dl doc.url
          ["other", tt, doc.filedate ++ " - " ++ name.pyStr ++ ".pdf"] doc.id with
      | .ok dl' => unknownLoop name rest dl'
      | .error e => (dl, some e)

/-- `event_unknown` (utils.py lines 688-696), the fallback handler: TypeError, KeyError
and IndexError from the body are caught and give the No-document summary.  When the
event has a title but zero documents, the loop variable `doc` is never bound and the
return statement raises UnboundLocalError (a NameError), which the `except` clause does
NOT catch. -/
def event_unknown (rows : Rows) (event : EventV2) (dl : DLState) (_max_age : Int) :
    Except PyErr HandlerOut :=
  match require event.title with
  | .error e =>
    if isTKI e then .ok (rows, dl, event.eventType ++ " -- No document") else .error e
  | .ok name =>
    match get_documents event with
    | .error e =>
      if isTKI e then .ok (rows, dl, event.eventType ++ " -- No document")
      else .error e
    | .ok docs =>
      match unknownLoop name docs dl with
      | (dl', some e) =>
        if isTKI e then .ok (rows, dl', event.eventType ++ " -- No document")
        else .error e
      | (dl', none) =>
        match docs.getLast? with
        | some doc =>
          .ok (rows, dl', event.eventType ++ ": " ++ doc.title.pyStr ++ ": " ++
            name.pyStr)
        | none => .error .nameError

/-- `s.lower()` on the character list (ASCII, as the event type tags are). -/
def pyLower (s : String) : String := String.mk (s.toList.map Char.toLower)

/-- `getattr(self, 'event_' + event['eventType'].lower(), self.event_unknown)` followed
by the call (utils.py line 717): dispatch by lowercased event type over the handler
methods defined on `TimelineTransaction`, defaulting to `event_unknown`. -/
def dispatchHandler (rows : Rows) (event : EventV2) (dl : DLState) (max_age : Int) :
    Except PyErr HandlerOut :=
  let et := pyLower event.eventType
  if et = "coupon_payment" then event_coupon_payment rows event dl max_age
  else if et = "credit" then event_credit rows event dl max_age
  else if et = "interest_payout_created_" then
    event_interest_payout_created_ rows event dl max_age
  else if et = "order_executed_" then event_order_executed_ rows event dl max_age
  else if et = "payment_inbound" then event_payment_inbound rows event dl max_age
  else if et = "payment_outbound" then event_payment_outbound rows event dl max_age
  else if et = "payment_inbound_sepa_direct_debit" then
    event_payment_inbound_sepa_direct_debit rows event dl max_age
  else if et = "repayment" then event_repayment rows event dl max_age
  else if et = "savings_plan_executed" then
    event_savings_plan_executed rows event dl max_age
  else if et = "benefits_saveback_execution" then
    event_benefits_saveback_execution rows event dl max_age
  else if et = "benefits_spare_change_execution" then
    event_benefits_spare_change_execution rows event dl max_age
  else if et = "card_successful_transaction" then
    event_card_successful_transaction rows event dl max_age
  else if et = "card_successful_verification" then
    event_card_successful_verification rows event dl max_age
  else event_unknown rows event dl max_age

/-! ## TimelineTransaction: pagination walker and detail window (utils.py 456-791) -/

/-- Fire-and-forget transport calls issued via `self.tr` (the api collaborator is out
of scope per spec section 6; only the calls are recorded). -/
inductive Req where
  | timeline_transactions (after : Option String)
  | timeline_detail_v2 (id : String)
  deriving DecidableEq, Repr

/-- The export artifacts written at pipeline completion (utils.py lines 726-753). -/
inductive Artifact where
  | all_events_json
  | account_transactions_csv
  | direct_debit_csv
  | card_transactions_csv
  deriving DecidableEq, Repr

/-- The mutable state of a `TimelineTransaction` object, fields mirrored one to one
(the dead `timeline_transactions` list, reset and never read, is omitted).  `out`
records the transport calls, `artifacts` the files written at completion, and
`drain_started` the `dl.work_responses()` call that starts the blocking drain. -/
structure TRState where
  timeline_events_v2 : List EventV2
  received_detail_v2 : Nat
  requested_detail_v2 : Nat
  num_timeline_details_v2 : Nat
  num_timeline_transactions : Nat
  events : List (String × EventV2)
  payments : List (List PyVal)
  direct_debit : List (List PyVal)
  card_transactions : List (List PyVal)
  out : List Req
  artifacts : List Artifact
  drain_started : Bool
  deriving Repr

/-- The state after `TimelineTransaction.__init__`. -/
def initTR : TRState :=
  { timeline_events_v2 := [], received_detail_v2 := 0, requested_detail_v2 := 0,
    num_timeline_details_v2 := 0, num_timeline_transactions := 0, events := [],
    payments := [], direct_debit := [], card_transactions := [], out := [],
    artifacts := [], drain_started := false }

/-- `_get_timeline_details_v2(num_torequest)` (utils.py lines 477-491): pop up to
`num_torequest` pending events (from the END of the list, Python `pop()`), store each in
the events dict and issue one detail request per popped event.  The source's unused
`max_age_timestamp` parameter is omitted: the v2 fill performs no screening at all. -/
def getTimelineDetailsV2 (num_torequest : Nat) (s : TRState) : TRState :=
  match num_torequest with
  | 0 => s
  | n + 1 =>
    match popLast s.timeline_events_v2 with
    | none => s
    | some (rest, event) =>
      getTimelineDetailsV2 n
        { s with timeline_events_v2 := rest,
                 events := assocSet s.events event.id event,
                 requested_detail_v2 := s.requested_detail_v2 + 1,
                 out := s.out ++ [.timeline_detail_v2 event.id] }

/-- A `timelineTransactions` page response: the `items` list and the `cursors` dict
with its optional `after` entry (`none` at the outer level models a missing key). -/
structure PageResponse where
  items : Option (List EventV2)
  cursors : Option (Option String)
  deriving Repr

/-- The Python comparison `v < c` against an integer: TypeError unless `v` is a
number. -/
def pyLtInt (v : PyVal) (c : Int) : Except PyErr Bool :=
  match v with
  | .int n => .ok (n < c)
  | _ => .error .typeError

/-- The Python comparison `v > c` against an integer. -/
def pyGtInt (v : PyVal) (c : Int) : Except PyErr Bool :=
  match v with
  | .int n => .ok (c < n)
  | _ => .error .typeError

/-- `get_next_timeline_transactions(response)` for an actual response (utils.py lines
769-791): read the oldest (last) item's timestamp, account the items, then either seed
the detail window (no cursor), stop early and seed (cursor present, nonzero cutoff,
oldest item older than the cutoff), or request the next page. -/
def get_next_timeline_transactions_resp (max_age_timestamp : Int) (resp : PageResponse)
    (s : TRState) : Except PyErr TRState :=
  match resp.items with
  | none => .error .keyError
  | some items =>
    match items.getLast? with
    | none => .error .indexError
    | some lastItem =>
      match lastItem.timestamp with
      | none => .error .keyError
      | some ts =>
        let s := { s with
          num_timeline_transactions := s.num_timeline_transactions + 1,
          num_timeline_details_v2 := s.num_timeline_details_v2 + items.length,
          timeline_events_v2 := s.timeline_events_v2 ++ items }
        match resp.cursors with
        | none => .error .keyError
        | some cursors =>
          match cursors with
          | none => .ok (getTimelineDetailsV2 5 s)
          | some after =>
            if max_age_timestamp ≠ 0 then
              match pyLtInt ts max_age_timestamp with
              | .error e => .error e
              | .ok old =>
                if old then .ok (getTimelineDetailsV2 5 s)
                else .ok { s with out := s.out ++ [.timeline_transactions (some after)] }
            else .ok { s with out := s.out ++ [.timeline_transactions (some after)] }

/-- `get_next_timeline_transactions(None)` (utils.py lines 762-768): reset and request
the first page. -/
def get_next_timeline_transactions_none (s : TRState) : TRState :=
  { s with num_timeline_transactions := 0, timeline_events_v2 := [],
           out := s.out ++ [.timeline_transactions none] }

/-- One `";".join(elements)` call: TypeError unless every element is a string. -/
def joinRow (row : List PyVal) : Except PyErr String :=
  match row.mapM (fun v => match v with
    | .str s => (.ok s : Except PyErr String)
    | _ => .error .typeError) with
  | .ok parts => .ok (String.intercalate ";" parts)
  | .error e => .error e

/-- Writing one CSV file row by row. -/
def writeCsv (rs : List (List PyVal)) : Except PyErr Unit :=
  match rs.mapM joinRow with
  | .ok _ => .ok ()
  | .error e => .error e

/-- The completion block of `timelineDetailV2` (utils.py lines 727-752): write
all_events.json and the three CSV files.  An artifact is recorded when its file is
opened, before its rows are written. -/
def writeCompletion (s : TRState) : Except PyErr TRState :=
  let s := { s with artifacts := s.artifacts ++ [Artifact.all_events_json] }
  let s := { s with artifacts := s.artifacts ++ [Artifact.account_transactions_csv] }
  match writeCsv s.payments with
  | .error e => .error e
  | .ok _ =>
    let s := { s with artifacts := s.artifacts ++ [Artifact.direct_debit_csv] }
    match writeCsv s.direct_debit with
    | .error e => .error e
    | .ok _ =>
      let s := { s with artifacts := s.artifacts ++ [Artifact.card_transactions_csv] }
      match writeCsv s.card_transactions with
      | .error e => .error e
      | .ok _ => .ok s

/-- The first two statements of `timelineDetailV2` (utils.py lines 703-712): increment
`received_detail_v2`, and when it has caught up with `requested_detail_v2`, refill the
window with the remaining pending count when that is below 5, else with 5. -/
def detailRefill (s : TRState) : TRState :=
  let s := { s with received_detail_v2 := s.received_detail_v2 + 1 }
  if s.received_detail_v2 = s.requested_detail_v2 then
    (let remaining := s.timeline_events_v2.length
     if remaining < 5 then getTimelineDetailsV2 remaining s
     else getTimelineDetailsV2 5 s)
  else s

/-- `timelineDetailV2(response, dl, max_age_timestamp)` (utils.py lines 698-753):
increment `received` and refill (`detailRefill`); attach the payload to its event;
dispatch the handler; when `received == num_timeline_details_v2`, write the export
artifacts and start the download queue drain. -/
def timelineDetailV2 (max_age_timestamp : Int) (response : PyVal) (s : TRState)
    (dl : DLState) : Except PyErr (TRState × DLState) :=
  let s := detailRefill s
  match response.getItem "id" with
  | .error e => .error e
  | .ok idv =>
    match (match idv with
      | .str i => (.ok i : Except PyErr String)
      | .list _ => .error .typeError
      | .dict _ => .error .typeError
      | _ => .error .keyError) with
    | .error e => .error e
    | .ok i =>
      match s.events.lookup i with
      | none => .error .keyError
      | some event =>
        let event := { event with details := some response }
        let s := { s with events := assocSet s.events i event }
        match dispatchHandler ⟨s.payments, s.direct_debit, s.card_transactions⟩
            event dl max_age_timestamp with
        | .error e => .error e
        | .ok (rows, dl, _name) =>
          let s := { s with payments := rows.payments,
                            direct_debit := rows.direct_debit,
                            card_transactions := rows.card_transactions }
          if s.received_detail_v2 = s.num_timeline_details_v2 then
            match writeCompletion s with
            | .error e => .error e
            | .ok s => .ok ({ s with drain_started := true }, dl)
          else .ok (s, dl)

/-! ## The v1 Timeline detail fill (utils.py lines 216-310) -/

/-- Transport calls of the v1 `Timeline` class. -/
inductive Req1 where
  | timeline (after : Option String)
  | timeline_detail (id : PyVal)
  deriving Repr

/-- The fields of the v1 `Timeline` object used by `_get_timeline_details`.
`num_timeline_details` is an `Int` because the skip path decrements it. -/
structure TLState where
  timeline_events : List PyVal
  received_detail : Nat
  requested_detail : Nat
  num_timeline_details : Int
  events_without_docs : List PyVal
  events_with_docs : List PyVal
  out1 : List Req1
  deriving Repr

/-- The screening of one popped event in `Timeline._get_timeline_details` (utils.py
lines 278-306): `.ok true` means the event is skipped (its `msg` is nonempty), `.ok
false` means a detail request will be issued.  Field accesses (including those made
while interpolating the skip messages and the debug line, which reads the title) follow
the source's evaluation order. -/
def screenV1 (max_age : Int) (event : PyVal) : Except PyErr Bool :=
  match event.getItem "data" with
  | .error e => .error e
  | .ok data =>
    match data.getOpt "action" with
    | .error e => .error e
    | .ok action =>
      match (if max_age ≠ 0 then
          (match data.getItem "timestamp" with
           | .error e => .error e
           | .ok ts => pyGtInt ts max_age : Except PyErr Bool)
        else .ok false) with
      | .error e => .error e
      | .ok tooOld =>
        if tooOld then
          match data.getItem "title" with
          | .error e => .error e
          | .ok _ => .ok true
        else
          match action with
          | .pynone =>
            match data.getOpt "actionLabel" with
            | .error e => .error e
            | .ok al =>
              match al with
              | .pynone =>
                match data.getItem "title" with
                | .error e => .error e
                | .ok _ => .ok true
              | _ => .ok false
          | a =>
            match a.getOpt "type" with
            | .error e => .error e
            | .ok t =>
              if (t == .str "timelineDetail") = false then
                match a.getItem "type" with
                | .error e => .error e
                | .ok _ =>
                  match data.getItem "title" with
                  | .error e => .error e
                  | .ok _ => .ok true
              else
                match a.getOpt "payload" with
                | .error e => .error e
                | .ok p =>
                  match data.getItem "id" with
                  | .error e => .error e
                  | .ok idv =>
                    if (p == idv) = false then
                      match a.getItem "payload" with
                      | .error e => .error e
                      | .ok _ =>
                        match data.getItem "title" with
                        | .error e => .error e
                        | .ok _ => .ok true
                    else .ok false

/-- `Timeline._get_timeline_details(num_torequest, max_age_timestamp)` (utils.py lines
266-310): pop pending events from the end; a screened-out event goes to
`events_without_docs` and decrements `num_timeline_details` WITHOUT consuming
`num_torequest`; an accepted event goes to `events_with_docs`, increments
`requested_detail` and gets a detail request keyed by its id. -/
def getTimelineDetails (max_age : Int) (n : Nat) (s : TLState) :
    Except PyErr TLState :=
  if n = 0 then .ok s
  else
    match hp : popLast s.timeline_events with
    | none => .ok s
    | some (rest, event) =>
      match screenV1 max_age event with
      | .error e => .error e
      | .ok true =>
        getTimelineDetails max_age n
          { s with timeline_events := rest,
                   events_without_docs := s.events_without_docs ++ [event],
                   num_timeline_details := s.num_timeline_details - 1 }
      | .ok false =>
        match (do (← event.getItem "data").getItem "id" : Except PyErr PyVal) with
        | .error e => .error e
        | .ok idv =>
          getTimelineDetails max_age (n - 1)
            { s with timeline_events := rest,
                     events_with_docs := s.events_with_docs ++ [event],
                     requested_detail := s.requested_detail + 1,
                     out1 := s.out1 ++ [.timeline_detail idv] }
termination_by s.timeline_events.length
decreasing_by
  all_goals
    simp_wf
    unfold popLast at hp
    rcases hrev : s.timeline_events.reverse with _ | ⟨x, restrev⟩
    · rw [hrev] at hp; cases hp
    · rw [hrev] at hp
      cases hp
      have hlen : s.timeline_events.length = restrev.length + 1 := by
        rw [← List.length_reverse s.timeline_events, hrev, List.length_cons]
      rw [hlen, List.length_reverse]
      omega

/-! ## The driver loop as a trace model (dl.py lines 68-84) -/

/-- An inbound message of the multiplexed channel, as dispatched by `dl_loop`: a
`timelineTransactions` page or a `timelineDetailV2` payload. -/
inductive Msg where
  | page (resp : PageResponse)
  | detail (payload : PyVal)

/-- A run of phase 1: the `TimelineTransaction` state, the `DL` object, and the
environment bookkeeping `pending_page` (whether a page request is outstanding at the
transport). -/
structure Run where
  st : TRState
  dl : DLState
  pending_page : Bool

/-- Whether a recorded transport call is a page request. -/
def isPageReq : Req → Bool
  | .timeline_transactions _ => true
  | _ => false

/-- A message can only arrive as the response to an outstanding request: a page when a
page request is pending, a detail response only while fewer detail responses have been
received than requests issued. -/
def Run.validMsg (r : Run) : Msg → Bool
  | .page _ => r.pending_page
  | .detail _ => decide (r.st.received_detail_v2 < r.st.requested_detail_v2)

/-- Process one inbound message (the dispatch of `dl_loop`, dl.py lines 77-82). -/
def stepMsg (max_age : Int) (m : Msg) (r : Run) : Except PyErr Run :=
  match m with
  | .page resp =>
    match get_next_timeline_transactions_resp max_age resp r.st with
    | .error e => .error e
    | .ok st' =>
      .ok { st := st', dl := r.dl,
            pending_page := (st'.out.drop r.st.out.length).any isPageReq }
  | .detail payload =>
    match timelineDetailV2 max_age payload r.st r.dl with
    | .error e => .error e
    | .ok (st', dl') => .ok { st := st', dl := dl', pending_page := r.pending_page }

/-- A trace error: a Python exception, or a message that no outstanding request could
have produced. -/
inductive TraceErr where
  | py (e : PyErr)
  | invalidMessage
  deriving DecidableEq, Repr

/-- Run the phase-1 sequencer over a list of inbound messages. -/
def execTrace (max_age : Int) : List Msg → Run → Except TraceErr Run
  | [], r => .ok r
  | m :: ms, r =>
    if r.validMsg m then
      match stepMsg max_age m r with
      | .error e => .error (.py e)
      | .ok r' => execTrace max_age ms r'
    else .error .invalidMessage

/-- The state right after `dl_loop` starts: `get_next_timeline_transactions(None)` has
reset the state and requested the first page. -/
def initRun (dl : DLState) : Run :=
  { st := get_next_timeline_transactions_none initTR, dl := dl, pending_page := true }

/-- Did this page-processing step request a further page? -/
def requestedNextPage (old new_ : TRState) : Bool :=
  (new_.out.drop old.out.length).any isPageReq

/-- The pagination walker fed with a fixed list of pages: pages are consumed as long as
the walker keeps requesting the next one. -/
def walkPages (max_age : Int) : List PageResponse → TRState → Except PyErr TRState
  | [], s => .ok s
  | p :: ps, s =>
    match get_next_timeline_transactions_resp max_age p s with
    | .error e => .error e
    | .ok s' => if requestedNextPage s s' then walkPages max_age ps s' else .ok s'

/-- The invariant of C10: the scheduled futures carry exactly the queued canonical keys,
in order, and those keys are pairwise distinct. -/
def DLInv (s : DLState) : Prop :=
  s.futures.map FutureTag.doc_url_base = s.doc_urls ∧ s.doc_urls.Nodup

/-- The state updates of `get_next_timeline_transactions` common to all branches
(utils.py lines 772-775): count the page, add its items to the total and append them to
the pending list. -/
def pageAccum (s : TRState) (items : List EventV2) : TRState :=
  { s with num_timeline_transactions := s.num_timeline_transactions + 1,
           num_timeline_details_v2 := s.num_timeline_details_v2 + items.length,
           timeline_events_v2 := s.timeline_events_v2 ++ items }

/-- A v1 timeline event dict with the fields the screening reads; `extra` supplies the
optional `action` / `actionLabel` entries. -/
def v1EventDict (idv : String) (ts : Int) (extra : List (String × PyVal)) : PyVal :=
  .dict [("data", .dict ([("id", .str idv), ("timestamp", .int ts),
    ("title", .str "T"), ("body", .str "B")] ++ extra))]

/-- The integer timestamp of a v2 item (0 when absent or non-integer; the C3 theorem
assumes integer timestamps, following the spec's data model). -/
def etsInt (e : EventV2) : Int :=
  match e.timestamp with
  | some (.int t) => t
  | _ => 0

/-- The items of a page (empty when the field is absent). -/
def itemsOf (p : PageResponse) : List EventV2 := p.items.getD []

/-- The accumulated event set: events still pending plus events moved into the events
dict by the fill step. -/
def accumEvents (s : TRState) : List EventV2 :=
  s.timeline_events_v2 ++ s.events.map (fun p => p.2)

/-- The four artifacts written at completion, in write order. -/
def allArtifacts : List Artifact :=
  [Artifact.all_events_json, Artifact.account_transactions_csv,
   Artifact.direct_debit_csv, Artifact.card_transactions_csv]

/-- A v2 event carrying neither an `action` nor an `actionLabel` field. -/
def c4Event : EventV2 :=
  { id := "e1", eventType := "X", timestamp := some (.int 100), title := none,
    subtitle := none, amount := none, icon := none, action := none,
    actionLabel := none, details := none }

/-- A `TimelineTransaction` state with the single pending event `c4Event`. -/
def c4State : TRState :=
  { initTR with timeline_events_v2 := [c4Event], num_timeline_details_v2 := 1 }

/-- The exceptions a computation can raise are among `S`. -/
def ErrorsIn {α : Type} (S : List PyErr) (x : Except PyErr α) : Prop :=
  ∀ e, x = .error e → e ∈ S

/-- A coupon-payment event whose detail payload has an empty `sections` list (the
overview section is missing), with well-formed amount and timestamp. -/
def c9Event : EventV2 :=
  { id := "e9", eventType := "COUPON_PAYMENT",
    timestamp := some (.str "2024-01-02T03:04:05"),
    title := none, subtitle := none,
    amount := some (.dict [("fractionDigits", .int 2), ("currency", .str "EUR"),
      ("value", .int 100)]),
    icon := none, action := none, actionLabel := none,
    details := some (.dict [("sections", .list [])]) }

/-- The phase-1 run invariant: received never exceeds requested; at most 5 requests are
outstanding; the total equals requested plus pending; while the initial pagination is
still awaiting a page no detail traffic exists; once pagination is over, the counters
meet only with an empty pending list; and the completion effects (artifact writes,
drain start) have happened exactly when all details are in. -/
def RunInv (r : Run) : Prop :=
  r.st.received_detail_v2 ≤ r.st.requested_detail_v2 ∧
  r.st.requested_detail_v2 - r.st.received_detail_v2 ≤ 5 ∧
  r.st.num_timeline_details_v2
    = r.st.requested_detail_v2 + r.st.timeline_events_v2.length ∧
  (r.pending_page = true →
    r.st.requested_detail_v2 = 0 ∧ r.st.received_detail_v2 = 0) ∧
  (r.pending_page = false →
    r.st.received_detail_v2 = r.st.requested_detail_v2 →
    r.st.timeline_events_v2 = []) ∧
  (r.st.drain_started = true ↔
    (r.st.received_detail_v2 = r.st.num_timeline_details_v2 ∧
     1 ≤ r.st.received_detail_v2)) ∧
  r.st.artifacts = (if r.st.drain_started then allArtifacts else [])

/-- The state produced by the continue branch of `get_next_timeline_transactions`
(utils.py line 791): account the page and request the next one. -/
def pageCont (s : TRState) (items : List EventV2) (c : String) : TRState :=
  { pageAccum s items with
    out := (pageAccum s items).out ++ [Req.timeline_transactions (some c)] }

/-- All items of a list of pages, in stream order. -/
def pagesItems : List PageResponse → List EventV2
  | [] => []
  | p :: ps => itemsOf p ++ pagesItems ps

/-- A v2 event with an integer timestamp older than the C3 witness cutoff. -/
def c3Event : EventV2 :=
  { id := "w3", eventType := "X", timestamp := some (.int 10), title := none,
    subtitle := none, amount := none, icon := none, action := none,
    actionLabel := none, details := none }

/-- A minimal v2 event for the C1 witness trace. -/
def c1Event : EventV2 :=
  { id := "w1", eventType := "X", timestamp := some (.int 100), title := none,
    subtitle := none, amount := none, icon := none, action := none,
    actionLabel := none, details := none }

/-- The C1 witness trace: one final page with a single item. -/
def c1Msgs : List Msg := [Msg.page { items := some [c1Event], cursors := some none }]

/-- A fresh download queue for the witness traces. -/
def witnessDL : DLState := mkDL [] (fun _ => false) []

/-- The run state after the C1 witness trace. -/
def c1Run : Run :=
  ((execTrace 0 c1Msgs (initRun witnessDL)).toOption).getD (initRun witnessDL)

/-- A v2 event whose handler (`event_interest_payout_created_`) succeeds, for the C5
witness trace. -/
def c5Event : EventV2 :=
  { id := "w5", eventType := "INTEREST_PAYOUT_CREATED_",
    timestamp := some (.str "2024-01-01T00:00:00"), title := none,
    subtitle := some (.str "Cash"), amount := none, icon := none, action := none,
    actionLabel := none, details := none }

/-- The C5 witness trace: one final page with a single item, then its detail
response. -/
def c5Msgs : List Msg :=
  [Msg.page { items := some [c5Event], cursors := some none },
   Msg.detail (.dict [("id", .str "w5")])]

/-- The run state after the C5 witness trace. -/
def c5Run : Run :=
  ((execTrace 0 c5Msgs (initRun witnessDL)).toOption).getD (initRun witnessDL)

/-! ## Theorems -/

theorem popLast_eq_none {α : Type} {l : List α} : popLast l = none ↔ l = [] := by
  constructor
  · intro h
    unfold popLast at h
    rcases hrev : l.reverse with _ | ⟨x, rest⟩
    · simpa using congrArg List.reverse hrev
    · rw [hrev] at h; cases h
  · intro h; subst h; rfl

theorem popLast_eq_some {α : Type} {l r : List α} {x : α}
    (h : popLast l = some (r, x)) : l = r ++ [x] := by
  unfold popLast at h
  rcases hrev : l.reverse with _ | ⟨y, rest⟩
  · rw [hrev] at h; cases h
  · rw [hrev] at h
    injection h with h'
    rw [Prod.mk.injEq] at h'
    obtain ⟨h1, h2⟩ := h'
    subst h1; subst h2
    have : l.reverse.reverse = (y :: rest).reverse := by rw [hrev]
    simpa using this

theorem popLast_append {α : Type} (l : List α) (x : α) :
    popLast (l ++ [x]) = some (l, x) := by
  unfold popLast
  rw [List.reverse_append]
  simp

/-- Inserting a fresh key into an association list appends. -/
theorem assocSet_fresh {α : Type} {d : List (String × α)} {k : String} (v : α)
    (h : k ∉ d.map Prod.fst) : assocSet d k v = d ++ [(k, v)] := by
  induction d with
  | nil => rfl
  | cons p rest ih =>
    obtain ⟨k', v'⟩ := p
    simp only [List.map_cons, List.mem_cons] at h
    push_neg at h
    unfold assocSet
    rw [if_neg (fun hc => h.1 hc.symm), ih h.2]
    rfl

/-- C2 (code bug): a page response whose `items` list is empty raises IndexError at
`response['items'][-1]['timestamp']` (utils.py line 771), and one whose `items` field
is absent raises KeyError there — in both cases before the cursor is even examined, so
the stream is NOT treated as exhausted and the detail window is not seeded. -/
theorem c2_empty_page_raises :
    get_next_timeline_transactions_resp 0
      { items := some [], cursors := some none } initTR = .error .indexError ∧
    get_next_timeline_transactions_resp 0
      { items := none, cursors := some none } initTR = .error .keyError := by
  exact ⟨rfl, rfl⟩

theorem dl_doc_eq (s : DLState) (u : String) (fp : FsPath) (sub : String) :
    dl_doc s u fp sub =
      if s.fs (fullPath s.output_path sub fp) = true ∨ doc_url_base u ∈ s.doc_urls ∨
          doc_url_base u ∈ s.doc_urls_history then s
      else { s with doc_urls := s.doc_urls ++ [doc_url_base u],
                    futures := s.futures ++
                      [{ url := u, filepath := fullPath s.output_path sub fp,
                         doc_url_base := doc_url_base u }] } := by
  unfold dl_doc
  by_cases h1 : s.fs (fullPath s.output_path sub fp) = true
  · simp [h1]
  · by_cases h2 : doc_url_base u ∈ s.doc_urls
    · simp [h1, h2]
    · by_cases h3 : doc_url_base u ∈ s.doc_urls_history
      · simp [h1, h2, h3]
      · simp [h1, h2, h3]

theorem dl_doc_fs (s : DLState) (u : String) (fp : FsPath) (sub : String) :
    (dl_doc s u fp sub).fs = s.fs := by
  rw [dl_doc_eq]; split <;> rfl

theorem dl_doc_output (s : DLState) (u : String) (fp : FsPath) (sub : String) :
    (dl_doc s u fp sub).output_path = s.output_path := by
  rw [dl_doc_eq]; split <;> rfl

theorem dl_doc_history (s : DLState) (u : String) (fp : FsPath) (sub : String) :
    (dl_doc s u fp sub).doc_urls_history = s.doc_urls_history := by
  rw [dl_doc_eq]; split <;> rfl

theorem dl_doc_urls_mono (s : DLState) (u : String) (fp : FsPath) (sub : String) :
    s.doc_urls ⊆ (dl_doc s u fp sub).doc_urls := by
  rw [dl_doc_eq]; split
  · exact fun x h => h
  · exact fun x h => List.mem_append_left _ h

theorem dl_doc_cover (s : DLState) (u : String) (fp : FsPath) (sub : String) :
    s.fs (fullPath s.output_path sub fp) = true ∨ doc_url_base u ∈ s.doc_urls_history ∨
    doc_url_base u ∈ (dl_doc s u fp sub).doc_urls := by
  rw [dl_doc_eq]
  by_cases h1 : s.fs (fullPath s.output_path sub fp) = true
  · exact Or.inl h1
  · by_cases h2 : doc_url_base u ∈ s.doc_urls
    · right; right; rw [if_pos (Or.inr (Or.inl h2))]; exact h2
    · by_cases h3 : doc_url_base u ∈ s.doc_urls_history
      · exact Or.inr (Or.inl h3)
      · right; right
        rw [if_neg (fun h => h.elim h1 (fun h' => h'.elim h2 h3))]
        exact List.mem_append_right _ (List.mem_singleton_self _)

theorem foldDL_cons (s : DLState) (q : DocRef) (qs : List DocRef) :
    foldDL s (q :: qs) = foldDL (dl_doc s q.url q.filepath q.subfolder) qs := rfl

theorem foldDL_fs (s : DLState) (refs : List DocRef) : (foldDL s refs).fs = s.fs := by
  induction refs generalizing s with
  | nil => rfl
  | cons q qs ih => rw [foldDL_cons, ih, dl_doc_fs]

theorem foldDL_output (s : DLState) (refs : List DocRef) :
    (foldDL s refs).output_path = s.output_path := by
  induction refs generalizing s with
  | nil => rfl
  | cons q qs ih => rw [foldDL_cons, ih, dl_doc_output]

theorem foldDL_history (s : DLState) (refs : List DocRef) :
    (foldDL s refs).doc_urls_history = s.doc_urls_history := by
  induction refs generalizing s with
  | nil => rfl
  | cons q qs ih => rw [foldDL_cons, ih, dl_doc_history]

theorem foldDL_urls_mono (s : DLState) (refs : List DocRef) :
    s.doc_urls ⊆ (foldDL s refs).doc_urls := by
  induction refs generalizing s with
  | nil => exact fun x h => h
  | cons q qs ih =>
    rw [foldDL_cons]
    exact fun x h => ih _ (dl_doc_urls_mono s q.url q.filepath q.subfolder h)

theorem foldDL_cover (s : DLState) (refs : List DocRef) :
    ∀ r ∈ refs, s.fs (fullPath s.output_path r.subfolder r.filepath) = true ∨
      doc_url_base r.url ∈ s.doc_urls_history ∨
      doc_url_base r.url ∈ (foldDL s refs).doc_urls := by
  induction refs generalizing s with
  | nil => intro r hr; cases hr
  | cons q qs ih =>
    intro r hr
    rcases List.mem_cons.mp hr with rfl | hr'
    · rcases dl_doc_cover s r.url r.filepath r.subfolder with h | h | h
      · exact Or.inl h
      · exact Or.inr (Or.inl h)
      · rw [foldDL_cons]
        exact Or.inr (Or.inr (foldDL_urls_mono _ qs h))
    · have h := ih (dl_doc s q.url q.filepath q.subfolder) r hr'
      rw [dl_doc_fs, dl_doc_output, dl_doc_history] at h
      exact h

theorem foldDL_skip_all (s : DLState) (refs : List DocRef)
    (h : ∀ r ∈ refs, s.fs (fullPath s.output_path r.subfolder r.filepath) = true ∨
          doc_url_base r.url ∈ s.doc_urls ∨ doc_url_base r.url ∈ s.doc_urls_history) :
    foldDL s refs = s := by
  induction refs with
  | nil => rfl
  | cons q qs ih =>
    have hstep : dl_doc s q.url q.filepath q.subfolder = s := by
      rw [dl_doc_eq, if_pos (h q (List.mem_cons_self _ _))]
    rw [foldDL_cons, hstep]
    exact ih (fun r hr => h r (List.mem_cons_of_mem _ hr))

/-- C6: `DL.dl_doc` schedules a fetch exactly when the destination path does not already
exist on disk and the canonical key (the URL without its query string) is in neither the
in-run queue nor the History Store; in every other case it returns the state unchanged,
scheduling nothing and recording nothing.  In particular, when the History Store already
contains the canonical key `https://x/doc`, enqueueing `https://x/doc?sig=abc` schedules
zero fetches. -/
theorem c6_enqueue_dedup (s : DLState) (u : String) (fp : FsPath) (sub : String) :
    (dl_doc s u fp sub =
      if s.fs (fullPath s.output_path sub fp) = true ∨ doc_url_base u ∈ s.doc_urls ∨
          doc_url_base u ∈ s.doc_urls_history then s
      else { s with doc_urls := s.doc_urls ++ [doc_url_base u],
                    futures := s.futures ++
                      [{ url := u, filepath := fullPath s.output_path sub fp,
                         doc_url_base := doc_url_base u }] }) ∧
    (∀ (s2 : DLState) (fp2 : FsPath) (sub2 : String),
      "https://x/doc" ∈ s2.doc_urls_history →
      (dl_doc s2 "https://x/doc?sig=abc" fp2 sub2).futures = s2.futures) := by
  refine ⟨dl_doc_eq s u fp sub, ?_⟩
  intro s2 fp2 sub2 h
  have hb : doc_url_base "https://x/doc?sig=abc" = "https://x/doc" := rfl
  rw [dl_doc_eq, if_pos (Or.inr (Or.inr (by rw [hb]; exact h)))]

/-- Witness for C6, at Scenario C: the History Store contains the canonical key, and
enqueueing the query-string variant leaves the futures list (scheduled fetches)
unchanged (empty). -/
theorem c6_enqueue_dedup_witness :
    (dl_doc (mkDL ["out"] (fun _ => false) ["https://x/doc"]) "https://x/doc?sig=abc"
      ["doc.pdf"] "").futures = [] :=
  (c6_enqueue_dedup (mkDL ["out"] (fun _ => false) ["https://x/doc"]) "u" [] "").2
    (mkDL ["out"] (fun _ => false) ["https://x/doc"]) ["doc.pdf"] ""
    (List.mem_singleton_self _)

/-- C7: if every fetch scheduled in a first run succeeded — its file was written to the
destination directory and its canonical key appended to the history file — then a second
run of the queue over the same document references, destination directory and history
file schedules zero fetches. -/
theorem c7_second_run_idempotent (out : FsPath) (fs0 : FsPath → Bool)
    (hist0 : List String) (refs : List DocRef) :
    (runDL out
      (fun p => fs0 p || (runDL out fs0 hist0 refs).futures.any (fun f => f.filepath == p))
      (hist0 ++ (runDL out fs0 hist0 refs).doc_urls) refs).futures = [] := by
  have h2 : runDL out
      (fun p => fs0 p || (runDL out fs0 hist0 refs).futures.any (fun f => f.filepath == p))
      (hist0 ++ (runDL out fs0 hist0 refs).doc_urls) refs
      = mkDL out
        (fun p => fs0 p || (runDL out fs0 hist0 refs).futures.any (fun f => f.filepath == p))
        (hist0 ++ (runDL out fs0 hist0 refs).doc_urls) := by
    apply foldDL_skip_all
    intro r hr
    rcases foldDL_cover (mkDL out fs0 hist0) refs r hr with h | h | h
    · left
      have h' : fs0 (fullPath out r.subfolder r.filepath) = true := h
      show (fs0 (fullPath out r.subfolder r.filepath) ||
        (runDL out fs0 hist0 refs).futures.any
          (fun f => f.filepath == fullPath out r.subfolder r.filepath)) = true
      rw [h']; rfl
    · right; right; exact List.mem_append_left _ h
    · right; right; exact List.mem_append_right _ h
  rw [h2]
  rfl

/-- C8 (code bug): during the drain phase, a failed fetch is logged at fatal severity
but the run does NOT abort: the loop falls through, writes the PREVIOUS response's body
to the failed document's path, increments `done`, appends the failed document's
canonical key to the History Store, and reaches `exit(0)` as if successful. -/
theorem c8_failure_not_aborted :
    work_responses
      { output_path := ["out"], fs := fun _ => false,
        doc_urls := ["https://a/1", "https://a/2"], doc_urls_history := [],
        futures :=
          [{ url := "https://a/1?q", filepath := ["out", "a1.pdf"],
             doc_url_base := "https://a/1" },
           { url := "https://a/2?q", filepath := ["out", "a2.pdf"],
             doc_url_base := "https://a/2" }],
        done := 0 }
      [({ url := "https://a/1?q", filepath := ["out", "a1.pdf"],
          doc_url_base := "https://a/1" }, .ok "BODY1"),
       ({ url := "https://a/2?q", filepath := ["out", "a2.pdf"],
          doc_url_base := "https://a/2" }, .error .connectionError)]
    = { files_written := [(["out", "a1.pdf"], "BODY1"), (["out", "a2.pdf"], "BODY1")],
        history_appends := ["https://a/1", "https://a/2"],
        done := 2, fatal_logs := 1, aborted := none, early_exit := true } := by
  rfl

theorem work_go_all_ok (total : Nat) (res : List (FutureTag × Except PyErr String)) :
    ∀ (r : Option String) (acc : WorkResult),
      (∀ x ∈ res, (x.2).isOk = true) → acc.done + res.length = total → res ≠ [] →
      (work_responses_go total res r acc).done = total ∧
      (work_responses_go total res r acc).early_exit = true ∧
      (work_responses_go total res r acc).files_written.length
        = acc.files_written.length + res.length := by
  induction res with
  | nil => intro r acc _ _ hne; exact absurd rfl hne
  | cons x rest ih =>
    intro r acc hok hlen _
    obtain ⟨fut, resx⟩ := x
    have hx : resx.isOk = true := hok (fut, resx) (List.mem_cons_self _ _)
    match resx, hx with
    | .ok content, _ =>
      simp only [work_responses_go]
      by_cases hdone : acc.done + 1 = total
      · have hrest : rest.length = 0 := by
          simp only [List.length_cons] at hlen; omega
        rw [if_pos hdone]
        refine ⟨hdone, rfl, ?_⟩
        simp only [List.length_append, List.length_cons, List.length_nil]
        omega
      · rw [if_neg hdone]
        have hne' : rest ≠ [] := by
          intro hcon
          subst hcon
          simp only [List.length_cons, List.length_nil] at hlen
          omega
        have hih := ih (some content)
          { acc with files_written := acc.files_written ++ [(fut.filepath, content)],
                     done := acc.done + 1,
                     history_appends := acc.history_appends ++ [fut.doc_url_base] }
          (fun y hy => hok y (List.mem_cons_of_mem _ hy))
          (by show acc.done + 1 + rest.length = total
              simp only [List.length_cons] at hlen
              omega) hne'
        refine ⟨hih.1, hih.2.1, ?_⟩
        rw [hih.2.2]
        simp only [List.length_append, List.length_cons, List.length_nil]
        omega

/-- C10: `dl_doc` preserves the invariant that the queued canonical keys are pairwise
distinct and that the scheduled futures carry exactly those keys (so there are as many
pending futures as queued keys, each tagged with a distinct canonical key and its
destination path); consequently, in `work_responses`, an all-success drain processes
every scheduled fetch and the `done` counter reaches `len(doc_urls)` exactly at the last
completion. -/
theorem c10_queue_invariant (s : DLState) (u : String) (fp : FsPath) (sub : String)
    (h : DLInv s) (hd : s.done = 0) :
    DLInv (dl_doc s u fp sub) ∧
    s.futures.length = s.doc_urls.length ∧
    (s.futures.map FutureTag.doc_url_base).Nodup ∧
    (∀ results : List (FutureTag × Except PyErr String),
      (∀ x ∈ results, (x.2).isOk = true) → results.length = s.doc_urls.length →
      results ≠ [] →
      (work_responses s results).done = s.doc_urls.length ∧
      (work_responses s results).early_exit = true ∧
      (work_responses s results).files_written.length = results.length) := by
  obtain ⟨hmap, hnodup⟩ := h
  refine ⟨?_, ?_, ?_, ?_⟩
  · rw [dl_doc_eq]
    split
    · exact ⟨hmap, hnodup⟩
    · rename_i hcond
      constructor
      · simp only [List.map_append, hmap]
        rfl
      · have hnew : doc_url_base u ∉ s.doc_urls := fun hc => hcond (Or.inr (Or.inl hc))
        simp [List.nodup_append, hnodup, hnew]
  · rw [← hmap, List.length_map]
  · rw [hmap]; exact hnodup
  · intro results hok hlen hne
    unfold work_responses
    have hpos : s.doc_urls.length ≠ 0 := by
      intro hc
      rw [hc, List.length_eq_zero] at hlen
      exact hne hlen
    rw [if_neg hpos]
    have := work_go_all_ok s.doc_urls.length results none
      { files_written := [], history_appends := [], done := s.done, fatal_logs := 0,
        aborted := none, early_exit := false } hok (by simp [hd, hlen]) hne
    refine ⟨this.1, this.2.1, ?_⟩
    rw [this.2.2]
    simp

/-- Witness for C10: a concrete one-element queue satisfying the invariant; the drain
with one successful completion exits with `done = len(doc_urls) = 1`. -/
theorem c10_queue_invariant_witness :
    (work_responses
      { output_path := [], fs := fun _ => false, doc_urls := ["https://a/1"],
        doc_urls_history := [],
        futures := [{ url := "https://a/1?q", filepath := ["f"],
                      doc_url_base := "https://a/1" }],
        done := 0 }
      [({ url := "https://a/1?q", filepath := ["f"], doc_url_base := "https://a/1" },
        .ok "B")]).early_exit = true :=
  ((c10_queue_invariant
      { output_path := [], fs := fun _ => false, doc_urls := ["https://a/1"],
        doc_urls_history := [],
        futures := [{ url := "https://a/1?q", filepath := ["f"],
                      doc_url_base := "https://a/1" }],
        done := 0 } "u" [] "" ⟨rfl, List.nodup_singleton _⟩ rfl).2.2.2
    [({ url := "https://a/1?q", filepath := ["f"], doc_url_base := "https://a/1" },
      .ok "B")]
    (by intro x hx; rcases List.mem_singleton.mp hx with rfl; rfl) rfl
    (List.cons_ne_nil _ _)).2.1

/-- C4 (counterexample): the v2 detail-fill step `_get_timeline_details_v2` — the fill
step of the pipeline the claim cites — performs NO screening: for a pending event with
no `action` field and no `actionLabel` field it still issues a detail request
(`requested` becomes 1 and a `timeline_detail_v2` call is recorded) and the
total-detail counter is NOT decremented. -/
theorem c4_v2_fill_requests_actionless :
    c4Event.action = none ∧ c4Event.actionLabel = none ∧
    (getTimelineDetailsV2 1 c4State).requested_detail_v2 = 1 ∧
    (getTimelineDetailsV2 1 c4State).out = [Req.timeline_detail_v2 "e1"] ∧
    (getTimelineDetailsV2 1 c4State).num_timeline_details_v2 = 1 :=
  ⟨rfl, rfl, rfl, rfl, rfl⟩

/-- C4 (amended): the screening lives in the v1 fill step
`Timeline._get_timeline_details`.  A popped event that the screen rejects is moved to
`events_without_docs`, the total-detail counter is decremented by one, and no detail
request is issued for it (the fill continues with the remaining events and an unchanged
request budget); the screen rejects an event when it has no `action` and no
`actionLabel`, when a nonzero cutoff is configured and its timestamp post-dates it,
when its action type is not `timelineDetail`, and when its action payload differs from
its id. -/
theorem c4_v1_fill_screens (max_age : Int) (n : Nat) (s : TLState)
    (rest : List PyVal) (e : PyVal) (hn : n ≠ 0)
    (hp : popLast s.timeline_events = some (rest, e))
    (hskip : screenV1 max_age e = .ok true) :
    (getTimelineDetails max_age n s =
      getTimelineDetails max_age n
        { s with timeline_events := rest,
                 events_without_docs := s.events_without_docs ++ [e],
                 num_timeline_details := s.num_timeline_details - 1 }) ∧
    (∀ (idv : String) (ts : Int), (max_age = 0 ∨ ts ≤ max_age) →
      screenV1 max_age (v1EventDict idv ts []) = .ok true) ∧
    (∀ (idv : String) (ts : Int) (extra : List (String × PyVal)),
      max_age ≠ 0 → max_age < ts →
      screenV1 max_age (v1EventDict idv ts extra) = .ok true) ∧
    (∀ (idv : String) (ts : Int) (ty : String) (payload : PyVal),
      (max_age = 0 ∨ ts ≤ max_age) → ty ≠ "timelineDetail" →
      screenV1 max_age (v1EventDict idv ts
        [("action", .dict [("type", .str ty), ("payload", payload)])]) = .ok true) ∧
    (∀ (idv : String) (ts : Int) (p : String),
      (max_age = 0 ∨ ts ≤ max_age) → p ≠ idv →
      screenV1 max_age (v1EventDict idv ts
        [("action", .dict [("type", .str "timelineDetail"), ("payload", .str p)])])
        = .ok true) := by
  refine ⟨?_, ?_, ?_, ?_, ?_⟩
  · conv_lhs => rw [getTimelineDetails]
    rw [if_neg hn]
    split
    · rename_i heq
      rw [hp] at heq
      cases heq
    · rename_i rest' e' heq
      rw [hp] at heq
      injection heq with heq'
      rw [Prod.mk.injEq] at heq'
      obtain ⟨rfl, rfl⟩ := heq'
      rw [hskip]
  · intro idv ts hts
    by_cases hma : max_age = 0
    · subst hma
      simp [screenV1, v1EventDict, PyVal.getItem, PyVal.getOpt, List.lookup]
    · have hts' : ts ≤ max_age := hts.resolve_left hma
      have hlt : decide (max_age < ts) = false := by
        simp only [decide_eq_false_iff_not]
        omega
      simp [screenV1, v1EventDict, PyVal.getItem, PyVal.getOpt, List.lookup, hma,
        pyGtInt, hlt]
  · intro idv ts extra hma hlt0
    have hgt : decide (max_age < ts) = true := by simpa using hlt0
    simp [screenV1, v1EventDict, PyVal.getItem, PyVal.getOpt, List.lookup, hma,
      pyGtInt, hgt]
  · intro idv ts ty payload hts hty
    have hbeq : (PyVal.str ty == PyVal.str "timelineDetail") = false := by
      show (ty == "timelineDetail") = false
      exact beq_eq_false_iff_ne.mpr hty
    by_cases hma : max_age = 0
    · subst hma
      simp [screenV1, v1EventDict, PyVal.getItem, PyVal.getOpt, List.lookup, hbeq]
    · have hts' : ts ≤ max_age := hts.resolve_left hma
      have hlt : decide (max_age < ts) = false := by
        simp only [decide_eq_false_iff_not]
        omega
      simp [screenV1, v1EventDict, PyVal.getItem, PyVal.getOpt, List.lookup, hma,
        pyGtInt, hlt, hbeq]
  · intro idv ts p hts hp2
    have hbeq : (PyVal.str p == PyVal.str idv) = false := by
      show (p == idv) = false
      exact beq_eq_false_iff_ne.mpr hp2
    have htd : (PyVal.str "timelineDetail" == PyVal.str "timelineDetail") = true := rfl
    by_cases hma : max_age = 0
    · subst hma
      simp [screenV1, v1EventDict, PyVal.getItem, PyVal.getOpt, List.lookup, hbeq,
        htd]
    · have hts' : ts ≤ max_age := hts.resolve_left hma
      have hlt : decide (max_age < ts) = false := by
        simp only [decide_eq_false_iff_not]
        omega
      simp [screenV1, v1EventDict, PyVal.getItem, PyVal.getOpt, List.lookup, hma,
        pyGtInt, hlt, hbeq, htd]

/-- Witness for C4's amended theorem: a concrete one-event v1 state whose event has no
action and no actionLabel; the fill step routes it to `events_without_docs` and
decrements the total. -/
theorem c4_v1_fill_screens_witness :
    getTimelineDetails 0 5
      { timeline_events := [v1EventDict "e1" 100 []], received_detail := 0,
        requested_detail := 0, num_timeline_details := 1, events_without_docs := [],
        events_with_docs := [], out1 := [] } =
    getTimelineDetails 0 5
      { timeline_events := [], received_detail := 0, requested_detail := 0,
        num_timeline_details := 0,
        events_without_docs := [v1EventDict "e1" 100 []], events_with_docs := [],
        out1 := [] } ∧
    screenV1 0 (v1EventDict "e1" 100 []) = .ok true := by
  have h := c4_v1_fill_screens 0 5
    { timeline_events := [v1EventDict "e1" 100 []], received_detail := 0,
      requested_detail := 0, num_timeline_details := 1, events_without_docs := [],
      events_with_docs := [], out1 := [] } [] (v1EventDict "e1" 100 [])
    (by decide) (by rfl) (by rfl)
  exact ⟨h.1, h.2.1 "e1" 100 (Or.inl rfl)⟩

/-! ### Error-set lemmas for the payload helpers (C9) -/

theorem errorsIn_ok {α : Type} {S : List PyErr} (a : α) :
    ErrorsIn S (.ok a) := fun _ he => nomatch he

theorem errorsIn_mono {α : Type} {S T : List PyErr} {x : Except PyErr α}
    (hST : ∀ e ∈ S, e ∈ T) (hx : ErrorsIn S x) : ErrorsIn T x :=
  fun e he => hST e (hx e he)

theorem errorsIn_bind {α β : Type} {S : List PyErr} {x : Except PyErr α}
    {f : α → Except PyErr β} (hx : ErrorsIn S x) (hf : ∀ a, ErrorsIn S (f a)) :
    ErrorsIn S (x >>= f) := by
  intro e he
  cases x with
  | ok a => exact hf a e he
  | error e' =>
    have he' : (Except.error e' : Except PyErr β) = Except.error e := he
    injection he' with h
    subst h
    exact hx e' rfl

theorem errorsIn_getItem (v : PyVal) (k : String) :
    ErrorsIn [.keyError, .typeError] (v.getItem k) := by
  intro e he
  unfold PyVal.getItem at he
  split at he
  · split at he
    · cases he
    · injection he with h; subst h; simp
  · injection he with h; subst h; simp

theorem errorsIn_require {α : Type} (o : Option α) :
    ErrorsIn [.keyError] (require o) := by
  intro e he
  cases o with
  | some a => cases he
  | none => injection he with h; subst h; simp

theorem errorsIn_iter (v : PyVal) : ErrorsIn [.typeError] v.iter := by
  intro e he
  cases v with
  | pynone => injection he with h; subst h; simp
  | int n => injection he with h; subst h; simp
  | str s => cases he
  | list l => cases he
  | dict d => cases he

theorem errorsIn_subscriptOpt (o : Option PyVal) (k : String) :
    ErrorsIn [.keyError, .typeError] (subscriptOpt o k) := by
  intro e he
  cases o with
  | some v => exact errorsIn_getItem v k e he
  | none => injection he with h; subst h; simp

theorem errorsIn_foldlM {α β : Type} {S : List PyErr} {f : β → α → Except PyErr β}
    (hf : ∀ b a, ErrorsIn S (f b a)) :
    ∀ (l : List α) (init : β), ErrorsIn S (l.foldlM f init) := by
  intro l
  induction l with
  | nil => intro init e he; cases he
  | cons a as ih =>
    intro init
    exact errorsIn_bind (hf init a) (fun b => ih b)

theorem errorsIn_get_key_lookup (key : PyKey) (p : PyVal) :
    ErrorsIn [.keyError, .typeError] (get_key_lookup key p) := by
  cases key with
  | s k => exact errorsIn_getItem p k
  | path ks => exact errorsIn_foldlM (fun b a => errorsIn_getItem b a) ks p

theorem errorsIn_get_key_go (key : PyKey) (value : PyVal) :
    ∀ l, ErrorsIn [.keyError, .typeError] (get_key_go key value l) := by
  intro l
  induction l with
  | nil => exact errorsIn_ok _
  | cons p rest ih =>
    intro e he
    unfold get_key_go at he
    split at he
    · rename_i e' hk
      injection he with h
      subst h
      exact errorsIn_get_key_lookup key p e' hk
    · split at he
      · cases he
      · exact ih e he

theorem errorsIn_get_key (parts : PyVal) (key : PyKey) (value : PyVal) :
    ErrorsIn [.keyError, .typeError] (get_key parts key value) := by
  intro e he
  unfold get_key at he
  split at he
  · rename_i e' hi
    injection he with h
    subst h
    have := errorsIn_iter parts e' hi
    simp at this ⊢
    tauto
  · exact errorsIn_get_key_go key value _ e he

theorem errorsIn_strptime (s : String) : ErrorsIn [.valueError] (strptime_dmY s) := by
  intro e he
  unfold strptime_dmY at he
  split at he
  · split at he
    · split at he
      · cases he
      · injection he with h; subst h; simp
    · injection he with h; subst h; simp
  · injection he with h; subst h; simp

theorem errorsIn_ofData (data : PyVal) :
    ErrorsIn [.keyError, .typeError, .valueError] (Document.ofData data) := by
  have hTK : ∀ e ∈ ([.keyError, .typeError] : List PyErr),
      e ∈ ([.keyError, .typeError, .valueError] : List PyErr) := by
    intro e he; simp at he ⊢; tauto
  unfold Document.ofData
  refine errorsIn_bind (errorsIn_mono hTK (errorsIn_getItem _ _)) (fun title => ?_)
  refine errorsIn_bind (errorsIn_mono hTK (errorsIn_getItem _ _)) (fun date => ?_)
  refine errorsIn_bind ?_ (fun filedate => ?_)
  · intro e he
    split at he
    · rename_i ds
      split at he
      · cases he
      · rename_i e' hsp
        injection he with h
        subst h
        have := errorsIn_strptime ds e' hsp
        simp at this ⊢
        tauto
    · injection he with h; subst h; simp
  · refine errorsIn_bind (errorsIn_mono hTK (errorsIn_getItem _ _)) (fun actionv => ?_)
    refine errorsIn_bind (errorsIn_mono hTK (errorsIn_getItem _ _)) (fun url => ?_)
    refine errorsIn_bind (errorsIn_mono hTK (errorsIn_getItem _ _)) (fun idv => ?_)
    refine errorsIn_bind (errorsIn_mono hTK (errorsIn_getItem _ _)) (fun pbt => ?_)
    exact errorsIn_ok _

theorem errorsIn_get_documents_body (event : EventV2) :
    ErrorsIn [.keyError, .typeError, .valueError] (get_documents_body event) := by
  have hTK : ∀ e ∈ ([.keyError, .typeError] : List PyErr),
      e ∈ ([.keyError, .typeError, .valueError] : List PyErr) := by
    intro e he; simp at he ⊢; tauto
  have hK : ∀ e ∈ ([.keyError] : List PyErr),
      e ∈ ([.keyError, .typeError, .valueError] : List PyErr) := by
    intro e he; simp at he ⊢; tauto
  have hT : ∀ e ∈ ([.typeError] : List PyErr),
      e ∈ ([.keyError, .typeError, .valueError] : List PyErr) := by
    intro e he; simp at he ⊢; tauto
  unfold get_documents_body
  refine errorsIn_bind (errorsIn_mono hK (errorsIn_require _)) (fun details => ?_)
  refine errorsIn_bind (errorsIn_mono hTK (errorsIn_getItem _ _)) (fun sections => ?_)
  refine errorsIn_bind (errorsIn_mono hTK (errorsIn_get_key _ _ _)) (fun documents => ?_)
  refine errorsIn_bind (errorsIn_mono hTK (errorsIn_subscriptOpt _ _)) (fun dataV => ?_)
  refine errorsIn_bind (errorsIn_mono hT (errorsIn_iter _)) (fun dataL => ?_)
  refine errorsIn_foldlM (fun docs d => ?_) dataL []
  intro e he
  split at he
  · cases he
  · rename_i e' hd
    split at he
    · cases he
    · injection he with h
      subst h
      exact errorsIn_ofData d e' hd

theorem errorsIn_get_documents_keyed_body (event : EventV2) (k : String) :
    ErrorsIn [.keyError, .typeError, .valueError] (get_documents_keyed_body event k) := by
  have hTK : ∀ e ∈ ([.keyError, .typeError] : List PyErr),
      e ∈ ([.keyError, .typeError, .valueError] : List PyErr) := by
    intro e he; simp at he ⊢; tauto
  have hK : ∀ e ∈ ([.keyError] : List PyErr),
      e ∈ ([.keyError, .typeError, .valueError] : List PyErr) := by
    intro e he; simp at he ⊢; tauto
  have hT : ∀ e ∈ ([.typeError] : List PyErr),
      e ∈ ([.keyError, .typeError, .valueError] : List PyErr) := by
    intro e he; simp at he ⊢; tauto
  unfold get_documents_keyed_body
  refine errorsIn_bind (errorsIn_mono hK (errorsIn_require _)) (fun details => ?_)
  refine errorsIn_bind (errorsIn_mono hTK (errorsIn_getItem _ _)) (fun sections => ?_)
  refine errorsIn_bind (errorsIn_mono hTK (errorsIn_get_key _ _ _)) (fun documents => ?_)
  refine errorsIn_bind (errorsIn_mono hTK (errorsIn_subscriptOpt _ _)) (fun dataV => ?_)
  refine errorsIn_bind (errorsIn_mono hT (errorsIn_iter _)) (fun dataL => ?_)
  refine errorsIn_foldlM (fun docs d => ?_) dataL []
  intro e he
  split at he
  · cases he
  · rename_i e' hd
    split at he
    · cases he
    · injection he with h
      subst h
      have hfun : ErrorsIn [.keyError, .typeError, .valueError]
          (do
            let doc ← Document.ofData d
            let kv ← d.getItem k
            match kv with
            | .list _ => (.error .typeError : Except PyErr (PyVal × Document))
            | .dict _ => .error .typeError
            | _ => .ok (kv, doc)) := by
        refine errorsIn_bind (errorsIn_ofData d) (fun doc => ?_)
        refine errorsIn_bind (errorsIn_mono hTK (errorsIn_getItem _ _)) (fun kv => ?_)
        intro x hx
        cases kv with
        | list l => injection hx with h2; subst h2; simp
        | dict dd => injection hx with h2; subst h2; simp
        | pynone => cases hx
        | str s2 => cases hx
        | int n2 => cases hx
      exact hfun e' hd

/-- C9 (counterexample): `event_coupon_payment` applied to a resolved detail payload
whose `sections` list lacks the overview section raises TypeError (the `get_key` lookup
returns `None` and `None[data]` is subscripted), instead of downgrading to an empty
value: a missing section DOES raise in this handler. -/
theorem c9_coupon_raises_on_missing_section :
    event_coupon_payment { payments := [], direct_debit := [], card_transactions := [] }
      c9Event (mkDL [] (fun _ => false) []) 0 = .error .typeError := by
  rfl

/-- C9 (amended): the absence tolerance holds for the shared extraction helpers, not
for the type-specific handlers: `get_isin` never raises (it downgrades every missing
section or field to the empty string), and `get_documents` (plain and keyed) never
raises a missing-section/field error — the only exception that can escape them is the
ValueError of a malformed (present but non-date) document date. -/
theorem c9_helpers_tolerate_missing :
    (∀ e : EventV2, (get_isin e).isOk = true) ∧
    (∀ e : EventV2, (get_documents e).isOk = true ∨
      get_documents e = .error .valueError) ∧
    (∀ (e : EventV2) (k : String), (get_documents_keyed e k).isOk = true ∨
      get_documents_keyed e k = .error .valueError) := by
  refine ⟨?_, ?_, ?_⟩
  · intro ev
    unfold get_isin
    cases h1 : get_isin_try1 ev with
    | ok v => rfl
    | error e =>
      have he : e ∈ ([.keyError, .typeError] : List PyErr) := by
        refine ?_ -- errors of try1
        have : ErrorsIn [.keyError, .typeError] (get_isin_try1 ev) := by
          have hK : ∀ x ∈ ([.keyError] : List PyErr),
              x ∈ ([.keyError, .typeError] : List PyErr) := by
            intro x hx; simp at hx ⊢; tauto
          unfold get_isin_try1
          refine errorsIn_bind (errorsIn_mono hK (errorsIn_require _)) (fun d => ?_)
          refine errorsIn_bind (errorsIn_getItem _ _) (fun sections => ?_)
          refine errorsIn_bind (errorsIn_get_key _ _ _) (fun part => ?_)
          refine errorsIn_bind (errorsIn_subscriptOpt _ _) (fun actionv => ?_)
          exact errorsIn_getItem _ _
        exact this e h1
      have hki : isTKI e = true := by
        simp at he
        rcases he with rfl | rfl <;> rfl
      dsimp only
      rw [if_pos hki]
      cases h2 : get_isin_try2 ev with
      | ok o => cases o <;> rfl
      | error e2 =>
        have he2 : e2 ∈ ([.keyError, .typeError] : List PyErr) := by
          have : ErrorsIn [.keyError, .typeError] (get_isin_try2 ev) := by
            have hK : ∀ x ∈ ([.keyError] : List PyErr),
                x ∈ ([.keyError, .typeError] : List PyErr) := by
              intro x hx; simp at hx ⊢; tauto
            unfold get_isin_try2
            refine errorsIn_bind (errorsIn_mono hK (errorsIn_require _)) (fun icon => ?_)
            intro x hx
            split at hx
            · cases hx
            · injection hx with h; subst h; simp
          exact this e2 h2
        have hor : (e2 = PyErr.typeError ∨ e2 = PyErr.keyError) := by
          simp at he2; tauto
        dsimp only
        rw [if_pos hor]
        rfl
  · intro ev
    unfold get_documents
    cases hb : get_documents_body ev with
    | ok docs => left; rfl
    | error e =>
      have he := errorsIn_get_documents_body ev e hb
      by_cases hki : isTKI e = true
      · left; dsimp only; rw [if_pos hki]; rfl
      · right
        have : e = PyErr.valueError := by
          simp at he
          rcases he with rfl | rfl | rfl
          · exact absurd rfl hki
          · exact absurd rfl hki
          · rfl
        subst this
        dsimp only
        rw [if_neg (by decide)]
  · intro ev k
    unfold get_documents_keyed
    cases hb : get_documents_keyed_body ev k with
    | ok docs => left; rfl
    | error e =>
      have he := errorsIn_get_documents_keyed_body ev k e hb
      by_cases hki : isTKI e = true
      · left; dsimp only; rw [if_pos hki]; rfl
      · right
        have : e = PyErr.valueError := by
          simp at he
          rcases he with rfl | rfl | rfl
          · exact absurd rfl hki
          · exact absurd rfl hki
          · rfl
        subst this
        dsimp only
        rw [if_neg (by decide)]

/-! ### The detail window and walker invariants (C1, C3, C5) -/

theorem fillV2_counters (n : Nat) : ∀ s : TRState,
    (getTimelineDetailsV2 n s).requested_detail_v2
      = s.requested_detail_v2 + min n s.timeline_events_v2.length ∧
    (getTimelineDetailsV2 n s).timeline_events_v2.length
      = s.timeline_events_v2.length - min n s.timeline_events_v2.length ∧
    (getTimelineDetailsV2 n s).received_detail_v2 = s.received_detail_v2 ∧
    (getTimelineDetailsV2 n s).num_timeline_details_v2 = s.num_timeline_details_v2 ∧
    (getTimelineDetailsV2 n s).artifacts = s.artifacts ∧
    (getTimelineDetailsV2 n s).drain_started = s.drain_started ∧
    (∃ ds, (getTimelineDetailsV2 n s).out = s.out ++ ds ∧
      ∀ q ∈ ds, isPageReq q = false) := by
  induction n with
  | zero =>
    intro s
    refine ⟨by simp [getTimelineDetailsV2], by simp [getTimelineDetailsV2], rfl, rfl,
      rfl, rfl, [], by simp [getTimelineDetailsV2], by simp⟩
  | succ n ih =>
    intro s
    cases hp : popLast s.timeline_events_v2 with
    | none =>
      have hnil : s.timeline_events_v2 = [] := popLast_eq_none.mp hp
      have hfix : getTimelineDetailsV2 (n + 1) s = s := by
        conv_lhs => rw [getTimelineDetailsV2, hp]
      rw [hfix, hnil]
      refine ⟨by simp, by simp, rfl, rfl, rfl, rfl, [], by simp, by simp⟩
    | some p =>
      obtain ⟨rest, ev⟩ := p
      have hl : s.timeline_events_v2 = rest ++ [ev] := popLast_eq_some hp
      have hfix : getTimelineDetailsV2 (n + 1) s
          = getTimelineDetailsV2 n
            { s with timeline_events_v2 := rest,
                     events := assocSet s.events ev.id ev,
                     requested_detail_v2 := s.requested_detail_v2 + 1,
                     out := s.out ++ [.timeline_detail_v2 ev.id] } := by
        conv_lhs => rw [getTimelineDetailsV2, hp]
      obtain ⟨h1, h2, h3, h4, h5, h6, ds, h7, h8⟩ :=
        ih { s with timeline_events_v2 := rest,
                    events := assocSet s.events ev.id ev,
                    requested_detail_v2 := s.requested_detail_v2 + 1,
                    out := s.out ++ [.timeline_detail_v2 ev.id] }
      dsimp only at h1 h2 h3 h4 h5 h6 h7
      rw [hfix]
      have hlen : s.timeline_events_v2.length = rest.length + 1 := by rw [hl]; simp
      refine ⟨?_, ?_, h3, h4, h5, h6, .timeline_detail_v2 ev.id :: ds, ?_, ?_⟩
      · rw [h1, hlen]
        omega
      · rw [h2, hlen]
        omega
      · rw [h7]
        simp
      · intro q hq
        rcases List.mem_cons.mp hq with rfl | hq'
        · rfl
        · exact h8 q hq'

theorem pageStep_ok {C : Int} {resp : PageResponse} {s s' : TRState}
    (h : get_next_timeline_transactions_resp C resp s = .ok s') :
    ∃ items, resp.items = some items ∧ items ≠ [] ∧
      (s' = getTimelineDetailsV2 5 (pageAccum s items) ∨
       ∃ c, s' = { pageAccum s items with
                   out := (pageAccum s items).out ++
                     [Req.timeline_transactions (some c)] }) := by
  unfold get_next_timeline_transactions_resp at h
  split at h
  · cases h
  · rename_i items hitems
    split at h
    · cases h
    · rename_i lastItem hlast
      split at h
      · cases h
      · rename_i ts hts
        refine ⟨items, hitems, ?_, ?_⟩
        · intro hnil
          subst hnil
          simp at hlast
        · split at h
          · cases h
          · rename_i cursors hcur
            split at h
            · left
              injection h with h'
              exact h'.symm
            · rename_i after
              split at h
              · split at h
                · cases h
                · rename_i old hlt
                  split at h
                  · left
                    injection h with h'
                    exact h'.symm
                  · right
                    refine ⟨after, ?_⟩
                    injection h with h'
                    exact h'.symm
              · right
                refine ⟨after, ?_⟩
                injection h with h'
                exact h'.symm

theorem writeCompletion_ok {s s' : TRState} (h : writeCompletion s = .ok s') :
    s' = { s with artifacts := s.artifacts ++ allArtifacts } := by
  unfold writeCompletion at h
  dsimp only at h
  split at h
  · cases h
  · split at h
    · cases h
    · split at h
      · cases h
      · injection h with h'
        subst h'
        simp [allArtifacts]

theorem detailStep_ok {C : Int} {payload : PyVal} {s s' : TRState} {dl dl' : DLState}
    (h : timelineDetailV2 C payload s dl = .ok (s', dl')) :
    ∃ s2 : TRState,
      s2 = detailRefill s ∧
      s'.received_detail_v2 = s2.received_detail_v2 ∧
      s'.requested_detail_v2 = s2.requested_detail_v2 ∧
      s'.num_timeline_details_v2 = s2.num_timeline_details_v2 ∧
      s'.timeline_events_v2 = s2.timeline_events_v2 ∧
      s'.out = s2.out ∧
      (s2.received_detail_v2 = s2.num_timeline_details_v2 →
        s'.drain_started = true ∧ s'.artifacts = s2.artifacts ++ allArtifacts) ∧
      (¬(s2.received_detail_v2 = s2.num_timeline_details_v2) →
        s'.drain_started = s2.drain_started ∧ s'.artifacts = s2.artifacts) := by
  unfold timelineDetailV2 at h
  dsimp only at h
  split at h
  · cases h
  · rename_i idv hid
    split at h
    · cases h
    · rename_i i hi
      split at h
      · cases h
      · rename_i event hev
        split at h
        · cases h
        · rename_i rows dl2 nm hdisp
          split at h
          · rename_i hcond
            split at h
            · cases h
            · rename_i s5 hwc
              injection h with h'
              rw [Prod.mk.injEq] at h'
              obtain ⟨hs, hdl⟩ := h'
              subst hs
              have h5 := writeCompletion_ok hwc
              subst h5
              refine ⟨_, rfl, rfl, rfl, rfl, rfl, rfl, ?_, ?_⟩
              · intro _
                exact ⟨rfl, rfl⟩
              · intro hne
                exact absurd hcond hne
          · rename_i hcond
            injection h with h'
            rw [Prod.mk.injEq] at h'
            obtain ⟨hs, hdl⟩ := h'
            subst hs
            refine ⟨_, rfl, rfl, rfl, rfl, rfl, rfl, ?_, ?_⟩
            · intro hc
              exact absurd hc hcond
            · intro _
              exact ⟨rfl, rfl⟩

theorem detailRefill_spec (s : TRState) :
    (detailRefill s).received_detail_v2 = s.received_detail_v2 + 1 ∧
    (detailRefill s).requested_detail_v2
      = (if s.received_detail_v2 + 1 = s.requested_detail_v2 then
          s.requested_detail_v2 + min 5 s.timeline_events_v2.length
         else s.requested_detail_v2) ∧
    (detailRefill s).num_timeline_details_v2 = s.num_timeline_details_v2 ∧
    (detailRefill s).timeline_events_v2.length
      = (if s.received_detail_v2 + 1 = s.requested_detail_v2 then
          s.timeline_events_v2.length - min 5 s.timeline_events_v2.length
         else s.timeline_events_v2.length) ∧
    (detailRefill s).artifacts = s.artifacts ∧
    (detailRefill s).drain_started = s.drain_started ∧
    ((detailRefill s).received_detail_v2 = (detailRefill s).requested_detail_v2 →
      (detailRefill s).timeline_events_v2 = []) := by
  unfold detailRefill
  dsimp only
  by_cases hc : s.received_detail_v2 + 1 = s.requested_detail_v2
  · rw [if_pos hc, if_pos hc, if_pos hc]
    by_cases hlen : s.timeline_events_v2.length < 5
    · rw [if_pos hlen]
      obtain ⟨f1, f2, f3, f4, f5, f6, _⟩ :=
        fillV2_counters s.timeline_events_v2.length
          { s with received_detail_v2 := s.received_detail_v2 + 1 }
      dsimp only at f1 f2 f3 f4 f5 f6
      refine ⟨f3, by rw [f1]; omega, f4, by rw [f2]; omega, f5, f6, ?_⟩
      intro heq
      rw [f3, f1] at heq
      have hlen0 : s.timeline_events_v2.length = 0 := by omega
      rw [← List.length_eq_zero]
      rw [f2]
      omega
    · rw [if_neg hlen]
      obtain ⟨f1, f2, f3, f4, f5, f6, _⟩ :=
        fillV2_counters 5 { s with received_detail_v2 := s.received_detail_v2 + 1 }
      dsimp only at f1 f2 f3 f4 f5 f6
      refine ⟨f3, by rw [f1], f4, by rw [f2], f5, f6, ?_⟩
      intro heq
      rw [f3, f1] at heq
      have hlen0 : min 5 s.timeline_events_v2.length = 0 := by omega
      rw [← List.length_eq_zero, f2]
      omega
  · rw [if_neg hc, if_neg hc, if_neg hc]
    refine ⟨rfl, rfl, rfl, rfl, rfl, rfl, ?_⟩
    intro heq
    exact absurd heq hc

theorem any_isPageReq_false {ds : List Req} (h : ∀ q ∈ ds, isPageReq q = false) :
    ds.any isPageReq = false := by
  induction ds with
  | nil => rfl
  | cons q qs ih =>
    simp [h q (List.mem_cons_self _ _),
      ih (fun x hx => h x (List.mem_cons_of_mem _ hx))]

theorem stepMsg_page_inv {C : Int} {resp : PageResponse} {r r' : Run}
    (hval : r.pending_page = true) (hr : RunInv r)
    (h : stepMsg C (.page resp) r = .ok r') : RunInv r' := by
  obtain ⟨i1, i2, i3, i4, i5, i6, i7⟩ := hr
  obtain ⟨hreq0, hrec0⟩ := i4 hval
  have hdrain : r.st.drain_started = false := by
    cases hd : r.st.drain_started
    · rfl
    · have := (i6.mp hd).2
      omega
  have hart : r.st.artifacts = [] := by
    rw [i7, hdrain]
    rfl
  unfold stepMsg at h
  dsimp only at h
  split at h
  · cases h
  · rename_i st' hstep
    injection h with h'
    subst h'
    obtain ⟨items, hitems, hne, hbranch⟩ := pageStep_ok hstep
    have hpout : (pageAccum r.st items).out = r.st.out := rfl
    have hitemspos : 1 ≤ items.length := by
      cases items with
      | nil => exact absurd rfl hne
      | cons a as => simp
    rcases hbranch with hseed | ⟨c, hcont⟩
    · obtain ⟨f1, f2, f3, f4, f5, f6, ds, f7, f8⟩ :=
        fillV2_counters 5 (pageAccum r.st items)
      have hL : (pageAccum r.st items).timeline_events_v2.length
          = r.st.timeline_events_v2.length + items.length := by
        show (r.st.timeline_events_v2 ++ items).length = _
        simp
      have hreq' : st'.requested_detail_v2
          = min 5 (r.st.timeline_events_v2.length + items.length) := by
        rw [hseed, f1, hL]
        show r.st.requested_detail_v2 + _ = _
        omega
      have hrec' : st'.received_detail_v2 = 0 := by
        rw [hseed, f3]
        exact hrec0
      have hnum' : st'.num_timeline_details_v2
          = r.st.num_timeline_details_v2 + items.length := by
        rw [hseed, f4]
        rfl
      have hlen' : st'.timeline_events_v2.length
          = (r.st.timeline_events_v2.length + items.length)
            - min 5 (r.st.timeline_events_v2.length + items.length) := by
        rw [hseed, f2, hL]
      have hdrain' : st'.drain_started = false := by
        rw [hseed, f6]
        exact hdrain
      have hart' : st'.artifacts = [] := by
        rw [hseed, f5]
        exact hart
      have hpp : (st'.out.drop r.st.out.length).any isPageReq = false := by
        rw [hseed, f7, hpout, List.drop_left]
        exact any_isPageReq_false f8
      refine ⟨?_, ?_, ?_, ?_, ?_, ?_, ?_⟩
      · rw [hreq', hrec']
        omega
      · rw [hreq', hrec']
        omega
      · rw [hnum', hreq', hlen', i3, hreq0]
        omega
      · intro hpp'
        have : (st'.out.drop r.st.out.length).any isPageReq = true := hpp'
        rw [hpp] at this
        cases this
      · intro _ hcnt
        rw [hrec', hreq'] at hcnt
        rw [← List.length_eq_zero, hlen']
        omega
      · constructor
        · intro hd
          rw [hdrain'] at hd
          cases hd
        · intro ⟨_, hge⟩
          rw [hrec'] at hge
          omega
      · rw [hart', hdrain']
        rfl
    · have hout' : st'.out = r.st.out ++ [Req.timeline_transactions (some c)] := by
        rw [hcont]
        rfl
      have hreq' : st'.requested_detail_v2 = 0 := by
        rw [hcont]
        exact hreq0
      have hrec' : st'.received_detail_v2 = 0 := by
        rw [hcont]
        exact hrec0
      have hnum' : st'.num_timeline_details_v2
          = r.st.num_timeline_details_v2 + items.length := by
        rw [hcont]
        rfl
      have hlen' : st'.timeline_events_v2.length
          = r.st.timeline_events_v2.length + items.length := by
        rw [hcont]
        show (r.st.timeline_events_v2 ++ items).length = _
        simp
      have hdrain' : st'.drain_started = false := by
        rw [hcont]
        exact hdrain
      have hart' : st'.artifacts = [] := by
        rw [hcont]
        exact hart
      have hpp : (st'.out.drop r.st.out.length).any isPageReq = true := by
        rw [hout', List.drop_left]
        rfl
      refine ⟨?_, ?_, ?_, ?_, ?_, ?_, ?_⟩
      · rw [hreq', hrec']
      · rw [hreq', hrec']
        omega
      · rw [hnum', hreq', hlen', i3, hreq0]
        omega
      · intro _
        exact ⟨hreq', hrec'⟩
      · intro hppf
        have : (st'.out.drop r.st.out.length).any isPageReq = false := hppf
        rw [hpp] at this
        cases this
      · constructor
        · intro hd
          rw [hdrain'] at hd
          cases hd
        · intro ⟨_, hge⟩
          rw [hrec'] at hge
          omega
      · rw [hart', hdrain']
        rfl

theorem stepMsg_detail_inv {C : Int} {payload : PyVal} {r r' : Run}
    (hval : r.st.received_detail_v2 < r.st.requested_detail_v2) (hr : RunInv r)
    (h : stepMsg C (.detail payload) r = .ok r') : RunInv r' := by
  obtain ⟨i1, i2, i3, i4, i5, i6, i7⟩ := hr
  have hppf : r.pending_page = false := by
    cases hpp : r.pending_page
    · rfl
    · obtain ⟨hq, _⟩ := i4 hpp
      omega
  have hdrain : r.st.drain_started = false := by
    cases hd : r.st.drain_started
    · rfl
    · obtain ⟨hq, _⟩ := i6.mp hd
      omega
  have hart : r.st.artifacts = [] := by
    rw [i7, hdrain]
    rfl
  unfold stepMsg at h
  dsimp only at h
  split at h
  · cases h
  · rename_i st' dl2 hstep
    injection h with h'
    subst h'
    obtain ⟨s2, hs2, d1, d2, d3, d4, _, dcomp, dncomp⟩ := detailStep_ok hstep
    obtain ⟨g1, g2, g3, g4, g5, g6, g7⟩ := detailRefill_spec r.st
    rw [← hs2] at g1 g2 g3 g4 g5 g6 g7
    have hrec' : st'.received_detail_v2 = r.st.received_detail_v2 + 1 := by
      rw [d1, g1]
    have hreq' : st'.requested_detail_v2
        = (if r.st.received_detail_v2 + 1 = r.st.requested_detail_v2 then
            r.st.requested_detail_v2 + min 5 r.st.timeline_events_v2.length
           else r.st.requested_detail_v2) := by
      rw [d2, g2]
    have hnum' : st'.num_timeline_details_v2 = r.st.num_timeline_details_v2 := by
      rw [d3, g3]
    have hlen' : st'.timeline_events_v2.length
        = (if r.st.received_detail_v2 + 1 = r.st.requested_detail_v2 then
            r.st.timeline_events_v2.length - min 5 r.st.timeline_events_v2.length
           else r.st.timeline_events_v2.length) := by
      rw [d4, g4]
    have hempty' : st'.received_detail_v2 = st'.requested_detail_v2 →
        st'.timeline_events_v2 = [] := by
      intro he
      rw [d4]
      apply g7
      rw [← d1, ← d2]
      exact he
    have harts2 : s2.artifacts = [] := by
      rw [g5]
      exact hart
    have h67 : (st'.drain_started = true ↔
        (st'.received_detail_v2 = st'.num_timeline_details_v2 ∧
         1 ≤ st'.received_detail_v2)) ∧
        st'.artifacts = (if st'.drain_started then allArtifacts else []) := by
      by_cases hfire : s2.received_detail_v2 = s2.num_timeline_details_v2
      · obtain ⟨hdr', hartf'⟩ := dcomp hfire
        constructor
        · constructor
          · intro _
            constructor
            · rw [d1, d3]
              exact hfire
            · rw [hrec']
              omega
          · intro _
            exact hdr'
        · rw [hartf', hdr', harts2]
          rfl
      · obtain ⟨hdr', hartf'⟩ := dncomp hfire
        have hdrf : st'.drain_started = false := by
          rw [hdr', g6]
          exact hdrain
        constructor
        · constructor
          · intro hcontr
            rw [hdrf] at hcontr
            cases hcontr
          · intro ⟨hcc, _⟩
            rw [d1, d3] at hcc
            exact absurd hcc hfire
        · rw [hartf', hdrf, harts2]
          rfl
    refine ⟨?_, ?_, ?_, ?_, ?_, h67.1, h67.2⟩
    · rw [hrec', hreq']
      split
      · omega
      · omega
    · rw [hrec', hreq']
      split
      · omega
      · omega
    · rw [hnum', hreq', hlen', i3]
      split
      · omega
      · omega
    · intro hppt
      have hppt' : r.pending_page = true := hppt
      rw [hppf] at hppt'
      cases hppt'
    · intro _ hcnt
      exact hempty' hcnt

theorem initRun_inv (dl : DLState) : RunInv (initRun dl) := by
  refine ⟨Nat.le_refl _, Nat.zero_le 5, rfl, fun _ => ⟨rfl, rfl⟩, ?_, ?_, rfl⟩
  · intro hpp
    cases hpp
  · constructor
    · intro hd
      cases hd
    · intro ⟨_, hg⟩
      exact absurd (show (1 : Nat) ≤ 0 from hg) (by decide)

theorem execTrace_inv (C : Int) : ∀ (ms : List Msg) (r r' : Run), RunInv r →
    execTrace C ms r = .ok r' → RunInv r' := by
  intro ms
  induction ms with
  | nil =>
    intro r r' hr h
    injection h with h'
    subst h'
    exact hr
  | cons m rest ih =>
    intro r r' hr h
    unfold execTrace at h
    split at h
    · rename_i hvalid
      split at h
      · cases h
      · rename_i r1 hstep
        refine ih r1 r' ?_ h
        cases m with
        | page resp => exact stepMsg_page_inv hvalid hr hstep
        | detail payload =>
          have hlt : r.st.received_detail_v2 < r.st.requested_detail_v2 :=
            of_decide_eq_true hvalid
          exact stepMsg_detail_inv hlt hr hstep
    · cases h

/-- C1: along every run of the phase-1 sequencer (`dl_loop` dispatching
`timelineTransactions` pages and `timelineDetailV2` payloads, dl.py lines 68-84 over
utils.py lines 477-491 and 698-753), the number of outstanding detail requests —
`requested_detail_v2 - received_detail_v2` — never exceeds 5: the window is seeded with
`_get_timeline_details_v2(5)` and only refilled once `received` has caught up with
`requested`, by at most 5 again. -/
theorem c1_detail_window_bounded (C : Int) (dl : DLState) (ms : List Msg) (r : Run)
    (h : execTrace C ms (initRun dl) = .ok r) :
    r.st.requested_detail_v2 - r.st.received_detail_v2 ≤ 5 :=
  (execTrace_inv C ms (initRun dl) r (initRun_inv dl) h).2.1

theorem c1_detail_window_bounded_witness :
    c1Run.st.requested_detail_v2 - c1Run.st.received_detail_v2 ≤ 5 :=
  c1_detail_window_bounded 0 witnessDL c1Msgs c1Run (by rfl)

/-- C5: along every run of the phase-1 sequencer, the completion effects of
`timelineDetailV2` (utils.py lines 727-753) happen exactly at the point where every
counted detail has been received: while the drain has not started no export artifact
has been written; once it has started, all four artifacts (all_events.json and the
three CSVs) have been written, every counted detail is in, and no event is left
pending; and whenever no message is deliverable any more (quiescence) and at least one
detail was counted, the drain has started — phase 1 cannot end without handing over to
`dl.work_responses`. -/
theorem c5_completion_exactly_once (C : Int) (dl : DLState) (ms : List Msg) (r : Run)
    (h : execTrace C ms (initRun dl) = .ok r) :
    (r.st.drain_started = false → r.st.artifacts = []) ∧
    (r.st.drain_started = true →
      r.st.artifacts = allArtifacts ∧
      r.st.received_detail_v2 = r.st.num_timeline_details_v2 ∧
      r.st.received_detail_v2 = r.st.requested_detail_v2 ∧
      r.st.timeline_events_v2 = []) ∧
    ((∀ m, r.validMsg m = false) → 1 ≤ r.st.num_timeline_details_v2 →
      r.st.drain_started = true) := by
  obtain ⟨i1, i2, i3, i4, i5, i6, i7⟩ :=
    execTrace_inv C ms (initRun dl) r (initRun_inv dl) h
  refine ⟨?_, ?_, ?_⟩
  · intro hd
    rw [i7, hd]
    rfl
  · intro hd
    obtain ⟨hrn, hr1⟩ := i6.mp hd
    have hreq : r.st.received_detail_v2 = r.st.requested_detail_v2 ∧
        r.st.timeline_events_v2.length = 0 := by
      constructor <;> omega
    refine ⟨?_, hrn, hreq.1, ?_⟩
    · rw [i7, hd]
      rfl
    · rw [← List.length_eq_zero]
      exact hreq.2
  · intro hterm hpos
    have hppf : r.pending_page = false :=
      hterm (Msg.page { items := none, cursors := none })
    have hle : ¬(r.st.received_detail_v2 < r.st.requested_detail_v2) :=
      of_decide_eq_false (hterm (Msg.detail .pynone))
    have heq : r.st.received_detail_v2 = r.st.requested_detail_v2 := by omega
    have hnil := i5 hppf heq
    have hlen0 : r.st.timeline_events_v2.length = 0 := by
      rw [hnil]
      rfl
    rw [i6]
    constructor
    · omega
    · omega

theorem c5_completion_exactly_once_witness :
    c5Run.st.artifacts = allArtifacts :=
  ((c5_completion_exactly_once 0 witnessDL c5Msgs c5Run (by rfl)).2.1 (by rfl)).1

theorem mem_of_getLast {α : Type} : ∀ {l : List α} {x : α},
    l.getLast? = some x → x ∈ l := by
  intro l
  induction l with
  | nil =>
    intro x h
    cases h
  | cons a rest ih =>
    intro x h
    cases rest with
    | nil =>
      rw [List.getLast?_singleton] at h
      injection h with h'
      subst h'
      exact List.mem_singleton_self a
    | cons b r =>
      rw [List.getLast?_cons_cons] at h
      exact List.mem_cons_of_mem a (ih h)

theorem pairwise_last_le : ∀ {l : List EventV2} {x : EventV2},
    l.Pairwise (fun a b => etsInt b ≤ etsInt a) → l.getLast? = some x →
    ∀ e ∈ l, etsInt x ≤ etsInt e := by
  intro l
  induction l with
  | nil =>
    intro x _ hx
    cases hx
  | cons a rest ih =>
    intro x hp hx e he
    cases rest with
    | nil =>
      rw [List.getLast?_singleton] at hx
      injection hx with hx'
      subst hx'
      rcases List.mem_singleton.mp he with rfl
      exact le_refl _
    | cons b rest' =>
      rw [List.getLast?_cons_cons] at hx
      obtain ⟨hab, hp'⟩ := List.pairwise_cons.mp hp
      rcases List.mem_cons.mp he with rfl | he'
      · exact hab x (mem_of_getLast hx)
      · exact ih hp' hx e he'

theorem resp_exhaust_eq {C : Int} {p : PageResponse} {items : List EventV2}
    {lastIt : EventV2} {ts : PyVal} (s : TRState)
    (hitems : p.items = some items) (hlast : items.getLast? = some lastIt)
    (hts : lastIt.timestamp = some ts) (hcur : p.cursors = some none) :
    get_next_timeline_transactions_resp C p s
      = .ok (getTimelineDetailsV2 5 (pageAccum s items)) := by
  unfold get_next_timeline_transactions_resp
  rw [hitems]
  dsimp only
  rw [hlast]
  dsimp only
  rw [hts]
  dsimp only
  rw [hcur]
  rfl

theorem resp_stop_eq {C t : Int} {p : PageResponse} {items : List EventV2}
    {lastIt : EventV2} {c : String} (s : TRState) (hC : C ≠ 0)
    (hitems : p.items = some items) (hlast : items.getLast? = some lastIt)
    (hts : lastIt.timestamp = some (.int t)) (hlt : t < C)
    (hcur : p.cursors = some (some c)) :
    get_next_timeline_transactions_resp C p s
      = .ok (getTimelineDetailsV2 5 (pageAccum s items)) := by
  unfold get_next_timeline_transactions_resp
  rw [hitems]
  dsimp only
  rw [hlast]
  dsimp only
  rw [hts]
  dsimp only
  rw [hcur]
  dsimp only [pyLtInt]
  rw [if_pos hC, decide_eq_true hlt]
  rfl

theorem resp_cont_eq {C t : Int} {p : PageResponse} {items : List EventV2}
    {lastIt : EventV2} {c : String} (s : TRState) (hC : C ≠ 0)
    (hitems : p.items = some items) (hlast : items.getLast? = some lastIt)
    (hts : lastIt.timestamp = some (.int t)) (hge : ¬ t < C)
    (hcur : p.cursors = some (some c)) :
    get_next_timeline_transactions_resp C p s = .ok (pageCont s items c) := by
  unfold get_next_timeline_transactions_resp
  rw [hitems]
  dsimp only
  rw [hlast]
  dsimp only
  rw [hts]
  dsimp only
  rw [hcur]
  dsimp only [pyLtInt]
  rw [if_pos hC, decide_eq_false hge]
  rfl

theorem fill_no_page_req (s : TRState) (items : List EventV2) :
    requestedNextPage s (getTimelineDetailsV2 5 (pageAccum s items)) = false := by
  obtain ⟨_, _, _, _, _, _, ds, h7, h8⟩ := fillV2_counters 5 (pageAccum s items)
  unfold requestedNextPage
  rw [h7]
  have hpout : (pageAccum s items).out = s.out := rfl
  rw [hpout, List.drop_left]
  exact any_isPageReq_false h8

theorem cont_page_req (s : TRState) (items : List EventV2) (c : String) :
    requestedNextPage s (pageCont s items c) = true := by
  unfold requestedNextPage pageCont
  dsimp only
  have hpout : (pageAccum s items).out = s.out := rfl
  rw [hpout, List.drop_left]
  rfl

theorem fillV2_accum (n : Nat) : ∀ s : TRState,
    (s.events.map Prod.fst ++ s.timeline_events_v2.map EventV2.id).Nodup →
    ∀ e, e ∈ accumEvents (getTimelineDetailsV2 n s) ↔ e ∈ accumEvents s := by
  induction n with
  | zero =>
    intro s _ e
    exact Iff.rfl
  | succ n ih =>
    intro s hnd e
    cases hp : popLast s.timeline_events_v2 with
    | none =>
      have hfix : getTimelineDetailsV2 (n + 1) s = s := by
        conv_lhs => rw [getTimelineDetailsV2, hp]
      rw [hfix]
    | some pr =>
      obtain ⟨rest, ev⟩ := pr
      have hl : s.timeline_events_v2 = rest ++ [ev] := popLast_eq_some hp
      have hfix : getTimelineDetailsV2 (n + 1) s
          = getTimelineDetailsV2 n
            { s with timeline_events_v2 := rest,
                     events := assocSet s.events ev.id ev,
                     requested_detail_v2 := s.requested_detail_v2 + 1,
                     out := s.out ++ [.timeline_detail_v2 ev.id] } := by
        conv_lhs => rw [getTimelineDetailsV2, hp]
      have hmemid : ev.id ∈ s.timeline_events_v2.map EventV2.id := by
        rw [hl]
        simp
      have hdisj := (List.nodup_append.mp hnd).2.2
      have hfreshk : ev.id ∉ s.events.map Prod.fst := fun hk => hdisj hk hmemid
      have hset : assocSet s.events ev.id ev = s.events ++ [(ev.id, ev)] :=
        assocSet_fresh ev hfreshk
      have hnd' : ((s.events.map Prod.fst ++ [ev.id]) ++ rest.map EventV2.id).Nodup := by
      -- the new id multiset is a permutation of the old one
        have hold : (s.events.map Prod.fst
            ++ (rest.map EventV2.id ++ [ev.id])).Nodup := by
          rw [hl] at hnd
          simpa using hnd
        have hperm : ((s.events.map Prod.fst ++ [ev.id]) ++ rest.map EventV2.id).Perm
            (s.events.map Prod.fst ++ (rest.map EventV2.id ++ [ev.id])) := by
          rw [List.append_assoc]
          exact List.Perm.append_left _ (List.perm_append_comm)
        exact (hperm.nodup_iff).mpr hold
      rw [hfix]
      refine Iff.trans (ih _ ?_ e) ?_
      · dsimp only
        rw [hset]
        simpa using hnd'
      · unfold accumEvents
        dsimp only
        rw [hset, hl]
        simp only [List.map_append, List.mem_append, List.mem_singleton, List.map_cons,
          List.map_nil]
        tauto

theorem walkPages_go (C : Int) (hC : C ≠ 0) (plast : PageResponse) :
    ∀ (body : List PageResponse) (s : TRState),
    s.events = [] →
    (∀ e ∈ s.timeline_events_v2, C ≤ etsInt e) →
    ((s.timeline_events_v2 ++ pagesItems (body ++ [plast])).map EventV2.id).Nodup →
    (s.timeline_events_v2 ++ pagesItems (body ++ [plast])).Pairwise
      (fun a b => etsInt b ≤ etsInt a) →
    (∀ p ∈ body ++ [plast], ∃ items lastIt t, p.items = some items ∧
      items.getLast? = some lastIt ∧ lastIt.timestamp = some (PyVal.int t)) →
    (∀ p ∈ body, ∃ c, p.cursors = some (some c)) →
    plast.cursors = some none →
    ∃ s', walkPages C (body ++ [plast]) s = .ok s' ∧
      (∀ e, e ∈ s.timeline_events_v2 ∨ e ∈ pagesItems (body ++ [plast]) →
        C ≤ etsInt e → e ∈ accumEvents s') ∧
      ∃ p, p ∈ body ++ [plast] ∧
        ∀ e, e ∈ accumEvents s' → etsInt e < C → e ∈ itemsOf p := by
  intro body
  induction body with
  | nil =>
    intro s hsev hfresh hnd hpw hpage hcurs hlastcur
    obtain ⟨items, lastIt, t, hitems, hlast, hts⟩ := hpage plast (by simp)
    have hitemsOf : itemsOf plast = items := by
      unfold itemsOf
      rw [hitems]
      rfl
    have hstep := resp_exhaust_eq (C := C) s hitems hlast hts hlastcur
    have hwalk : walkPages C ([] ++ [plast]) s
        = .ok (getTimelineDetailsV2 5 (pageAccum s items)) := by
      show walkPages C [plast] s = _
      simp only [walkPages]
      rw [hstep]
      dsimp only
      rw [fill_no_page_req]
      rfl
    have hndX : ((pageAccum s items).events.map Prod.fst
        ++ (pageAccum s items).timeline_events_v2.map EventV2.id).Nodup := by
      unfold pageAccum
      dsimp only
      rw [hsev]
      simpa [pagesItems, hitemsOf] using hnd
    have hacc := fillV2_accum 5 (pageAccum s items) hndX
    have haccX : ∀ e, e ∈ accumEvents (pageAccum s items)
        ↔ (e ∈ s.timeline_events_v2 ∨ e ∈ items) := by
      intro e
      unfold accumEvents pageAccum
      dsimp only
      rw [hsev]
      simp
    refine ⟨_, hwalk, ?_, plast, by simp, ?_⟩
    · intro e he _
      rw [hacc e, haccX e]
      rcases he with h | h
      · exact Or.inl h
      · simp only [pagesItems, hitemsOf, List.append_nil, List.nil_append] at h
        exact Or.inr h
    · intro e he hlt
      rw [hacc e, haccX e] at he
      rcases he with h | h
      · exact absurd (hfresh e h) (not_le.mpr hlt)
      · rw [hitemsOf]
        exact h
  | cons p rest ih =>
    intro s hsev hfresh hnd hpw hpage hcurs hlastcur
    obtain ⟨items, lastIt, t, hitems, hlast, hts⟩ := hpage p (List.mem_cons_self _ _)
    have hitemsOf : itemsOf p = items := by
      unfold itemsOf
      rw [hitems]
      rfl
    have hpi : pagesItems ((p :: rest) ++ [plast])
        = items ++ pagesItems (rest ++ [plast]) := by
      show itemsOf p ++ pagesItems (rest ++ [plast]) = _
      rw [hitemsOf]
    rw [hpi] at hnd hpw
    obtain ⟨hpwA, hpwBR, hAB⟩ := List.pairwise_append.mp hpw
    obtain ⟨hpwItems, hpwR, hItemsR⟩ := List.pairwise_append.mp hpwBR
    have hlastmem := mem_of_getLast hlast
    have hlastets : etsInt lastIt = t := by
      simp [etsInt, hts]
    obtain ⟨c, hcur⟩ := hcurs p (List.mem_cons_self _ _)
    by_cases hold : t < C
    · have hstep := resp_stop_eq s hC hitems hlast hts hold hcur
      have hwalk : walkPages C ((p :: rest) ++ [plast]) s
          = .ok (getTimelineDetailsV2 5 (pageAccum s items)) := by
        show walkPages C (p :: (rest ++ [plast])) s = _
        simp only [walkPages]
        rw [hstep]
        dsimp only
        rw [fill_no_page_req]
        rfl
      have hndX : ((pageAccum s items).events.map Prod.fst
          ++ (pageAccum s items).timeline_events_v2.map EventV2.id).Nodup := by
        unfold pageAccum
        dsimp only
        rw [hsev]
        have hsub : (s.timeline_events_v2 ++ items).Sublist
            (s.timeline_events_v2 ++ (items ++ pagesItems (rest ++ [plast]))) := by
          rw [← List.append_assoc]
          exact List.sublist_append_left _ _
        simpa using hnd.sublist (hsub.map EventV2.id)
      have hacc := fillV2_accum 5 (pageAccum s items) hndX
      have haccX : ∀ e, e ∈ accumEvents (pageAccum s items)
          ↔ (e ∈ s.timeline_events_v2 ∨ e ∈ items) := by
        intro e
        unfold accumEvents pageAccum
        dsimp only
        rw [hsev]
        simp
      refine ⟨_, hwalk, ?_, p, List.mem_cons_self _ _, ?_⟩
      · intro e he hCe
        rw [hacc e, haccX e]
        rcases he with h | h
        · exact Or.inl h
        · rw [hpi] at h
          rcases List.mem_append.mp h with h | h
          · exact Or.inr h
          · have h1 : etsInt e ≤ etsInt lastIt := hItemsR lastIt hlastmem e h
            rw [hlastets] at h1
            exfalso
            omega
      · intro e he hlt
        rw [hacc e, haccX e] at he
        rcases he with h | h
        · exact absurd (hfresh e h) (not_le.mpr hlt)
        · rw [hitemsOf]
          exact h
    · have hstep := resp_cont_eq s hC hitems hlast hts hold hcur
      have hwalk1 : walkPages C ((p :: rest) ++ [plast]) s
          = walkPages C (rest ++ [plast]) (pageCont s items c) := by
        show walkPages C (p :: (rest ++ [plast])) s = _
        simp only [walkPages]
        rw [hstep]
        dsimp only
        rw [cont_page_req]
        rfl
      have hev1 : (pageCont s items c).events = [] := hsev
      have htl1 : (pageCont s items c).timeline_events_v2
          = s.timeline_events_v2 ++ items := rfl
      have hfresh1 : ∀ e ∈ (pageCont s items c).timeline_events_v2, C ≤ etsInt e := by
        intro e he
        rw [htl1] at he
        rcases List.mem_append.mp he with h | h
        · exact hfresh e h
        · have h1 : etsInt lastIt ≤ etsInt e := pairwise_last_le hpwItems hlast e h
          rw [hlastets] at h1
          omega
      have hnd1 : (((pageCont s items c).timeline_events_v2
          ++ pagesItems (rest ++ [plast])).map EventV2.id).Nodup := by
        rw [htl1, List.append_assoc]
        exact hnd
      have hpw1 : ((pageCont s items c).timeline_events_v2
          ++ pagesItems (rest ++ [plast])).Pairwise (fun a b => etsInt b ≤ etsInt a) := by
        rw [htl1, List.append_assoc]
        exact hpw
      have hpage1 : ∀ q ∈ rest ++ [plast], ∃ items lastIt t, q.items = some items ∧
          items.getLast? = some lastIt ∧ lastIt.timestamp = some (PyVal.int t) :=
        fun q hq => hpage q (List.mem_cons_of_mem _ hq)
      have hcurs1 : ∀ q ∈ rest, ∃ c, q.cursors = some (some c) :=
        fun q hq => hcurs q (List.mem_cons_of_mem _ hq)
      obtain ⟨s', hw', hin', q, hq, hlim⟩ :=
        ih (pageCont s items c) hev1 hfresh1 hnd1 hpw1 hpage1 hcurs1 hlastcur
      refine ⟨s', by rw [hwalk1]; exact hw', ?_, q, List.mem_cons_of_mem _ hq, hlim⟩
      intro e he hCe
      refine hin' e ?_ hCe
      rcases he with h | h
      · exact Or.inl (by rw [htl1]; exact List.mem_append_left _ h)
      · rw [hpi] at h
        rcases List.mem_append.mp h with h | h
        · exact Or.inl (by rw [htl1]; exact List.mem_append_right _ h)
        · exact Or.inr h

/-- C3: in `get_next_timeline_transactions` (utils.py lines 769-791), when a page
carries a next cursor, the age cutoff C is nonzero and the page's oldest (last) item has
an integer timestamp older than C, the walker seeds the detail window exactly as in the
exhaustion branch and requests no further page.  Consequently, for any nonempty
sequence of pages whose items carry integer timestamps (the spec's data model),
arrive newest-first across the stream with distinct ids, whose non-final pages carry
cursors and whose final page does not, the walk from the program's initial state
succeeds, its accumulated event set (pending plus already-filled events) excludes no
item with timestamp at or after C, and every accumulated item older than C belongs to a
single page. -/
theorem c3_early_stop_one_page_overshoot (C : Int) (hC : C ≠ 0) :
    (∀ (s : TRState) (items : List EventV2) (lastIt : EventV2) (t : Int) (c : String),
      items.getLast? = some lastIt → lastIt.timestamp = some (PyVal.int t) → t < C →
      get_next_timeline_transactions_resp C
          { items := some items, cursors := some (some c) } s
        = .ok (getTimelineDetailsV2 5 (pageAccum s items)) ∧
      ∀ s', get_next_timeline_transactions_resp C
          { items := some items, cursors := some (some c) } s = .ok s' →
        requestedNextPage s s' = false) ∧
    (∀ (body : List PageResponse) (plast : PageResponse),
      (∀ p ∈ body ++ [plast], ∃ items lastIt t, p.items = some items ∧
        items.getLast? = some lastIt ∧ lastIt.timestamp = some (PyVal.int t)) →
      (∀ p ∈ body, ∃ c, p.cursors = some (some c)) →
      plast.cursors = some none →
      ((pagesItems (body ++ [plast])).map EventV2.id).Nodup →
      (pagesItems (body ++ [plast])).Pairwise (fun a b => etsInt b ≤ etsInt a) →
      ∃ s', walkPages C (body ++ [plast])
          (get_next_timeline_transactions_none initTR) = .ok s' ∧
        (∀ e ∈ pagesItems (body ++ [plast]), C ≤ etsInt e → e ∈ accumEvents s') ∧
        ∃ p, p ∈ body ++ [plast] ∧
          ∀ e, e ∈ accumEvents s' → etsInt e < C → e ∈ itemsOf p) := by
  constructor
  · intro s items lastIt t c hlast hts hlt
    have heq := resp_stop_eq (p := { items := some items, cursors := some (some c) })
      s hC rfl hlast hts hlt rfl
    refine ⟨heq, ?_⟩
    intro s' hs'
    rw [heq] at hs'
    injection hs' with h'
    subst h'
    exact fill_no_page_req s items
  · intro body plast hpage hcurs hlastcur hnd hpw
    have hs0ev : (get_next_timeline_transactions_none initTR).events = [] := rfl
    have hs0tl : (get_next_timeline_transactions_none initTR).timeline_events_v2
        = [] := rfl
    obtain ⟨s', hw, hin, p, hp, hlim⟩ :=
      walkPages_go C hC plast body (get_next_timeline_transactions_none initTR)
        hs0ev
        (by intro e he
            rw [hs0tl] at he
            cases he)
        (by rw [hs0tl]
            simpa using hnd)
        (by rw [hs0tl]
            simpa using hpw)
        hpage hcurs hlastcur
    refine ⟨s', hw, ?_, p, hp, hlim⟩
    intro e he hCe
    exact hin e (Or.inr he) hCe

theorem c3_early_stop_one_page_overshoot_witness :
    get_next_timeline_transactions_resp 50
        { items := some [c3Event], cursors := some (some "c") } initTR
      = .ok (getTimelineDetailsV2 5 (pageAccum initTR [c3Event])) :=
  ((c3_early_stop_one_page_overshoot 50 (by decide)).1 initTR [c3Event] c3Event 10 "c"
    rfl rfl (by decide)).1

end Pytr
